import Mathlib

/-!
Verification development for the MrVGFX MT5 simulated-DOM bridge
(`src/bridge.py`).  The per-symbol synthetic depth engine
(`SimulatedDOMGenerator`) is shallowly embedded: Python floats become
rationals (`ℚ`), `round(x, d)` becomes ideal decimal round-half-to-even,
the `random` module becomes an explicit stream of draws, and the Python
dict / set state of the generator becomes an explicit per-symbol state
record.  `bridge.py` defines `get_dom_data` twice in the same class body;
the second definition (line 440) shadows the first, so only the second is
embedded (the shadowed first definition additionally rejected ticks with
zero bid or ask - that check is absent from the effective code).
`ℚ` division is total with `x / 0 = 0`; every reachable call in the
source divides by a positive quote `point`.
-/

namespace Bridge

/-- Python `round` half-to-even on an ideal decimal value, to an integer. -/
def rhe (q : ℚ) : ℤ :=
  if q - ⌊q⌋ < 1/2 then ⌊q⌋
  else if 1/2 < q - ⌊q⌋ then ⌊q⌋ + 1
  else if ⌊q⌋ % 2 = 0 then ⌊q⌋ else ⌊q⌋ + 1

/-- Python `round(x, d)` for a non-negative digit count `d`. -/
def pyRound (q : ℚ) (d : ℕ) : ℚ := (rhe (q * 10 ^ d) : ℚ) / 10 ^ d

/-- Python one-argument `round(x)` (returns an int). -/
def pyRound0 (q : ℚ) : ℤ := rhe q

/-- Python `int(x)`: truncation toward zero. -/
def pyInt (q : ℚ) : ℤ := if 0 ≤ q then ⌊q⌋ else -⌊-q⌋

/-! ## Random source

All calls into Python's `random` module are modelled as successive draws
from an explicit stream `f : ℕ → ℚ` of values (each intended to lie in
`[0, 1)`), consumed at an advancing position.  No theorem below depends
on the distribution of the draws. -/

structure RS where
  f : ℕ → ℚ
  i : ℕ

/-- `random.random()`. -/
def rnext (r : RS) : ℚ × RS := (r.f r.i, ⟨r.f, r.i + 1⟩)

/-- `random.uniform(a, b)`. -/
def runiform (a b : ℚ) (r : RS) : ℚ × RS :=
  let x := rnext r
  (a + (b - a) * x.1, x.2)

/-- `random.randint(a, b)` (inclusive bounds), one draw. -/
def rrandint (a b : ℕ) (r : RS) : ℕ × RS :=
  let x := rnext r
  (a + min (b - a) (Int.toNat ⌊x.1 * ((b : ℚ) - a + 1)⌋), x.2)

/-- `random.choice(l)` for a non-empty list, one draw. -/
def rchoice (l : List ℚ) (r : RS) : ℚ × RS :=
  let x := rnext r
  (l.getD (Int.toNat ⌊x.1 * l.length⌋ % l.length) 0, x.2)

/-! ## The per-symbol volume cache

`self.volume_cache[display_name]` is a Python dict from rounded price to
volume; it is modelled as an association list in insertion order (new
keys are appended, matching dict iteration order). -/

abbrev Cache := List (ℚ × ℚ)

def clookup : Cache → ℚ → Option ℚ
  | [], _ => none
  | (q, v) :: t, p => if q = p then some v else clookup t p

def cset : Cache → ℚ → ℚ → Cache
  | [], p, v => [(p, v)]
  | (q, w) :: t, p, v => if q = p then (q, v) :: t else (q, w) :: cset t p v

def cdel : Cache → ℚ → Cache
  | [], _ => []
  | (q, w) :: t, p => if q = p then t else (q, w) :: cdel t p

/-- Remove the first occurrence of a value from a list
(`set.remove` on the order-block set). -/
def lremove : List ℚ → ℚ → List ℚ
  | [], _ => []
  | x :: t, p => if x = p then t else x :: lremove t p

/-- Substring test, `'JPY' in display_name`. -/
def prefixOfL : List Char → List Char → Bool
  | [], _ => true
  | _ :: _, [] => false
  | a :: as, b :: bs => a == b && prefixOfL as bs

def infixOfL (pat : List Char) : List Char → Bool
  | [] => prefixOfL pat []
  | b :: t => prefixOfL pat (b :: t) || infixOfL pat t

def strContains (s pat : String) : Bool := infixOfL pat.data s.data

/-! ## Data model -/

/-- Configuration constants of `bridge.py`. -/
def DOM_LEVELS : ℕ := 15

def VOLUME_MIN : ℚ := 0.1

def VOLUME_MAX : ℚ := 5.0

def ORDER_BLOCK_CHANCE : ℚ := 0.05

def ORDER_BLOCK_MULTIPLIER : ℚ := 8.0

def ORDER_BLOCK_MAX_COUNT : ℕ := 5

/-- `mt5.symbol_info_tick` result (the fields the engine reads). -/
structure Tick where
  bid : ℚ
  ask : ℚ
  time_msc : ℤ
deriving DecidableEq, Inhabited

/-- `mt5.symbol_info` result (the fields the engine reads). -/
structure SymbolInfo where
  digits : ℕ
  point : ℚ
deriving DecidableEq, Inhabited

/-- `mt5.BOOK_TYPE_SELL` / `mt5.BOOK_TYPE_BUY` / any other book type. -/
inductive BookType
  | sell
  | buy
  | otherType
deriving DecidableEq, Inhabited

/-- One row of `mt5.market_book_get`. -/
structure BookItem where
  price : ℚ
  volume : ℚ
  type : BookType
deriving DecidableEq, Inhabited

/-- One DOM level dict `{'price': .., 'volume': .., 'total': ..}`. -/
structure Level where
  price : ℚ
  volume : ℚ
  total : ℚ
deriving DecidableEq, Inhabited

/-- Side tag of the strongest level (`'BID'` / `'ASK'` / `'NONE'`). -/
inductive Side
  | BID
  | ASK
  | NONE
deriving DecidableEq, Inhabited

/-- A stored stable support / resistance level (`{'price': x, 'volume': y}`;
the source stores the whole level dict but only ever reads these two
fields). -/
structure SLevel where
  price : ℚ
  volume : ℚ
deriving DecidableEq, Inhabited

/-- The five checklist conditions of `_calculate_signal` (the `passed`
flags; the cosmetic `label` / `value` strings are not modelled). -/
structure Checklist where
  volume_dominant : Bool
  trend_aligned : Bool
  confidence_high : Bool
  volume_confirms : Bool
  strong_level : Bool
deriving DecidableEq, Inhabited

/-- The `signal` block of a snapshot. -/
structure Signal where
  type : String
  strength : ℚ
  trend : String
  trend_arrow : String
  volume_confirms : Bool
  checklist : Checklist
  passed_count : ℕ
  total_conditions : ℕ
  ready_to_trade : Bool
deriving DecidableEq, Inhabited

/-- One entry zone of `_calculate_entry_zones` (`buy_zone` stores the
support price in `anchor_price`, `sell_zone` the resistance price). -/
structure Zone where
  entry_low : ℚ
  entry_high : ℚ
  stop_loss : ℚ
  sl_pips : ℚ
  sl_distance : ℚ
  tp1 : ℚ
  tp2 : ℚ
  tp3 : ℚ
  strength : ℤ
  anchor_price : ℚ
  recommended : Bool
deriving DecidableEq, Inhabited

/-- The `analysis` block of a snapshot. -/
structure Analysis where
  buy_pressure : ℚ
  sell_pressure : ℚ
  direction : String
  confidence : ℚ
  strongest_price : ℚ
  strongest_volume : ℚ
  strongest_side : Side
  total_bid_volume : ℚ
  total_ask_volume : ℚ
  support_price : ℚ
  support_volume : ℚ
  resistance_price : ℚ
  resistance_volume : ℚ
deriving DecidableEq, Inhabited

/-- The DOM snapshot dict returned by `get_dom_data` (the wall-clock
`timestamp` string and the purely cosmetic `bubbles` block are not
modelled; no claim mentions them). -/
structure Snapshot where
  symbol : String
  bid : ℚ
  ask : ℚ
  spread : ℤ
  spread_pips : ℚ
  mid_price : ℚ
  asks : List Level
  bids : List Level
  max_volume : ℚ
  digits : ℕ
  is_real_data : Bool
  analysis : Analysis
  signal : Signal
  buy_zone : Zone
  sell_zone : Zone
deriving DecidableEq, Inhabited

/-- The per-symbol slice of the generator's mutable dicts.  `none` means
the symbol's key is absent from the corresponding dict. -/
structure SymState where
  volume_cache : Option Cache
  last_tick_time : Option ℤ
  last_price : Option ℚ
  order_blocks : Option (List ℚ)
  stable_support : Option SLevel
  stable_resistance : Option SLevel
deriving DecidableEq, Inhabited

/-- Fresh generator: every per-symbol dict is empty. -/
def initState : SymState := ⟨none, none, none, none, none, none⟩

/-- Outcome of one `get_dom_data` call. -/
inductive DomResult
  | noData
  | err
  | snap (s : Snapshot)
deriving DecidableEq, Inhabited

def DomResult.isSnap : DomResult → Bool
  | .snap _ => true
  | _ => false

def DomResult.asksL : DomResult → List Level
  | .snap s => s.asks
  | _ => []

def DomResult.bidsL : DomResult → List Level
  | .snap s => s.bids
  | _ => []

def theSnap : DomResult → Snapshot
  | .snap s => s
  | _ => default

/-- Result of one full cycle: the returned value, the updated per-symbol
state, the advanced random stream, and (ghost instrumentation for the
eviction bound) the list of cache keys deleted by the cleanup step. -/
structure CycleOut where
  result : DomResult
  state : SymState
  r : RS
  evicted : List ℚ

/-! ## `_calculate_signal` -/

def calculate_signal (buy_pressure sell_pressure : ℚ) (direction : String)
    (confidence : ℚ) (total_bid_vol total_ask_vol : ℚ)
    (strongest_level : ℚ × ℚ × Side) : Signal :=
  let imbalance := buy_pressure - sell_pressure
  let strongest_side := strongest_level.2.2
  let strongest_volume := strongest_level.2.1
  let signal_type : String :=
    if strongest_side = Side.BID ∧ strongest_volume > 3 then "BUY"
    else if strongest_side = Side.ASK ∧ strongest_volume > 3 then "SELL"
    else "WAIT"
  let strength := min 100 (strongest_volume * 10 + |imbalance|)
  let ta : String × String :=
    if imbalance > 20 then ("STRONG_UP", "uu")
    else if imbalance > 5 then ("UP", "u")
    else if imbalance < -20 then ("STRONG_DOWN", "dd")
    else if imbalance < -5 then ("DOWN", "d")
    else ("SIDEWAYS", "r")
  let trend := ta.1
  let volume_ratio := if total_ask_vol > 0 then total_bid_vol / total_ask_vol else 1
  let volume_confirms : Bool :=
    if signal_type = "BUY" then decide (volume_ratio > 1.1)
    else if signal_type = "SELL" then decide (volume_ratio < 0.9)
    else false
  let checklist : Checklist :=
    { volume_dominant := decide (|imbalance| > 10)
      trend_aligned :=
        decide ((signal_type = "BUY" ∧ (trend = "UP" ∨ trend = "STRONG_UP")) ∨
          (signal_type = "SELL" ∧ (trend = "DOWN" ∨ trend = "STRONG_DOWN")) ∨
          signal_type = "WAIT")
      confidence_high := decide (confidence ≥ 60)
      volume_confirms := volume_confirms || decide (signal_type = "WAIT")
      strong_level := decide (strongest_level.2.1 > 5) }
  let passed_count :=
    checklist.volume_dominant.toNat + checklist.trend_aligned.toNat +
      checklist.confidence_high.toNat + checklist.volume_confirms.toNat +
      checklist.strong_level.toNat
  { type := signal_type
    strength := pyRound strength 1
    trend := trend
    trend_arrow := ta.2
    volume_confirms := volume_confirms
    checklist := checklist
    passed_count := passed_count
    total_conditions := 5
    ready_to_trade := decide (passed_count ≥ 4) && decide (signal_type ≠ "WAIT") }

/-! ## `_calculate_entry_zones` -/

def calculate_entry_zones (bid ask support_price resistance_price : ℚ)
    (support_vol resistance_vol point_value : ℚ) (digits : ℕ) : Zone × Zone :=
  let spread := ask - bid
  let pip_value := if digits = 5 ∨ digits = 3 then point_value * 10 else point_value
  -- Buy zone: entry above support, stop loss below support.
  let buy_entry_low := support_price + spread * 1
  let buy_entry_high := support_price + spread * 3
  let buy_sl := support_price - spread * 5
  let buy_sl_pips := pyRound ((buy_entry_low - buy_sl) / pip_value) 1
  let risk_distance := buy_entry_low - buy_sl
  let buy_tp1 := pyRound (buy_entry_low + risk_distance) digits
  let buy_tp2 := pyRound (buy_entry_low + risk_distance * 2) digits
  let buy_tp3 := pyRound (buy_entry_low + risk_distance * 3) digits
  let buy_sl_distance := pyRound (buy_entry_low - buy_sl) digits
  let buy_strength := min 100 (pyInt (support_vol * 12))
  -- Sell zone: entry below resistance, stop loss above resistance.
  let sell_entry_high := resistance_price - spread * 1
  let sell_entry_low := resistance_price - spread * 3
  let sell_sl := resistance_price + spread * 5
  let sell_sl_pips := pyRound ((sell_sl - sell_entry_high) / pip_value) 1
  let risk_distance_sell := sell_sl - sell_entry_high
  let sell_tp1 := pyRound (sell_entry_high - risk_distance_sell) digits
  let sell_tp2 := pyRound (sell_entry_high - risk_distance_sell * 2) digits
  let sell_tp3 := pyRound (sell_entry_high - risk_distance_sell * 3) digits
  let sell_sl_distance := pyRound (sell_sl - sell_entry_high) digits
  let sell_strength := min 100 (pyInt (resistance_vol * 12))
  ({ entry_low := pyRound buy_entry_low digits
     entry_high := pyRound buy_entry_high digits
     stop_loss := pyRound buy_sl digits
     sl_pips := buy_sl_pips
     sl_distance := buy_sl_distance
     tp1 := buy_tp1
     tp2 := buy_tp2
     tp3 := buy_tp3
     strength := buy_strength
     anchor_price := pyRound support_price digits
     recommended := decide (buy_strength > sell_strength) },
   { entry_low := pyRound sell_entry_low digits
     entry_high := pyRound sell_entry_high digits
     stop_loss := pyRound sell_sl digits
     sl_pips := sell_sl_pips
     sl_distance := sell_sl_distance
     tp1 := sell_tp1
     tp2 := sell_tp2
     tp3 := sell_tp3
     strength := sell_strength
     anchor_price := pyRound resistance_price digits
     recommended := decide (sell_strength > buy_strength) })

/-! ## Synthetic depth: level step, order blocks, level generation -/

/-- Per-instrument-class level step (`get_dom_data`, lines 517-543). -/
def level_step (display_name : String) (mid_price point : ℚ) : ℚ :=
  if strContains display_name "JPY" then max 0.1 (pyRound (mid_price * 0.006) 2)
  else if strContains display_name "XAU" then max 5.0 (pyRound (mid_price * 0.006) 1)
  else if strContains display_name "XAG" then max 0.05 (pyRound (mid_price * 0.006) 3)
  else if strContains display_name "BTC" then max 100.0 (pyRound (mid_price * 0.006) 0)
  else if strContains display_name "ETH" then max 5.0 (pyRound (mid_price * 0.006) 1)
  else if strContains display_name "SOL" then max 0.2 (pyRound (mid_price * 0.006) 2)
  else if strContains display_name "XRP" then max 0.003 (pyRound (mid_price * 0.006) 4)
  else max (point * 10) (pyRound (mid_price * 0.006) 5)

/-- Order-block spawn attempt (`get_dom_data`, lines 548-550): only if
the block count is below the maximum; draws are consumed exactly where
Python's short-circuit evaluation consumes them. -/
def spawn_step (mid_price step : ℚ) (digits : ℕ) (blocks : List ℚ) (r : RS) :
    List ℚ × RS :=
  if blocks.length < ORDER_BLOCK_MAX_COUNT then
    let c := rnext r
    if c.1 < ORDER_BLOCK_CHANCE then
      let sgn := rnext c.2
      let k := rrandint 5 10 sgn.2
      let price_level :=
        pyRound (mid_price + (if sgn.1 > 0.5 then 1 else -1) * step * k.1) digits
      (if price_level ∈ blocks then blocks else blocks ++ [price_level], k.2)
    else (blocks, c.2)
  else (blocks, r)

/-- Order-block despawn attempt (`get_dom_data`, lines 551-552): removes
one randomly chosen existing block; the block's volume-cache entry is not
touched. -/
def despawn_step (blocks : List ℚ) (r : RS) : List ℚ × RS :=
  if blocks ≠ [] then
    let d := rnext r
    if d.1 < ORDER_BLOCK_CHANCE then
      let ch := rchoice blocks d.2
      (lremove blocks ch.1, ch.2)
    else (blocks, d.2)
  else (blocks, r)

/-- Order-block management (`get_dom_data`, lines 545-552): both the
spawn and the despawn attempt are nested inside `should_update_volume`
and an outer 5% gate. -/
def manage_blocks (should_update : Bool) (mid_price step : ℚ) (digits : ℕ)
    (blocks : List ℚ) (r : RS) : List ℚ × RS :=
  if should_update then
    let g := rnext r
    if g.1 < 0.05 then
      let sp := spawn_step mid_price step digits blocks g.2
      despawn_step sp.1 sp.2
    else (blocks, g.2)
  else (blocks, r)

/-- Fresh ask-side volume for a cache miss (`get_dom_data`, lines
558-575): smaller range, quadratic decay, occasional spike or gap. -/
def ask_fresh_vol (blocks : List ℚ) (ask_strength : ℚ) (i : ℕ) (price : ℚ)
    (r : RS) : ℚ × RS :=
  let br := runiform (VOLUME_MIN * 0.5) (VOLUME_MAX * 0.6) r
  let decay := (1 - ((i : ℚ) / (DOM_LEVELS : ℚ)) ^ 2) * 0.6
  let va := runiform 0.3 1.4 br.2
  let base_vol := br.1 * decay * ask_strength * va.1
  let s1 := rnext va.2
  let spiked : ℚ × RS :=
    if s1.1 < 0.15 then
      let m := runiform 2.5 4.0 s1.2
      (base_vol * m.1, m.2)
    else
      let s2 := rnext s1.2
      if s2.1 < 0.10 then (base_vol * 0.15, s2.2) else (base_vol, s2.2)
  let boosted :=
    if price ∈ blocks then spiked.1 * ORDER_BLOCK_MULTIPLIER else spiked.1
  (pyRound (max 0.05 boosted) 2, spiked.2)

/-- Fresh bid-side volume for a cache miss (`get_dom_data`, lines
583-605): larger range, linear decay, a support cluster, occasional
wall. -/
def bid_fresh_vol (blocks : List ℚ) (bid_strength : ℚ) (cluster_start : ℕ)
    (i : ℕ) (price : ℚ) (r : RS) : ℚ × RS :=
  let br := runiform (VOLUME_MIN * 0.8) (VOLUME_MAX * 1.3) r
  let decay := (1 - ((i : ℚ) / (DOM_LEVELS : ℚ)) * 0.3) * 0.85
  let va :=
    if cluster_start ≤ i ∧ i ≤ cluster_start + 3 then runiform 1.5 2.2 br.2
    else runiform 0.5 1.3 br.2
  let base_vol := br.1 * decay * bid_strength * va.1
  let s1 := rnext va.2
  let spiked : ℚ × RS :=
    if s1.1 < 0.12 then
      let m := runiform 2.0 3.0 s1.2
      (base_vol * m.1, m.2)
    else (base_vol, s1.2)
  let boosted :=
    if price ∈ blocks then spiked.1 * ORDER_BLOCK_MULTIPLIER else spiked.1
  (pyRound (max 0.1 boosted) 2, spiked.2)

/-- The cache interaction of one loop iteration: a cache miss seeds a
fresh volume, a cache hit is perturbed by `uniform(updLo, updHi)` only
when `should_update`. -/
def gen_step (priceOf : ℕ → ℚ) (fresh : ℕ → ℚ → RS → ℚ × RS)
    (updLo updHi : ℚ) (should_update : Bool) (i : ℕ) (c : Cache) (r : RS) :
    Cache × RS :=
  let p := priceOf i
  match clookup c p with
  | none =>
    let fr := fresh i p r
    (cset c p fr.1, fr.2)
  | some v =>
    if should_update then
      let u := runiform updLo updHi r
      (cset c p (pyRound (v * u.1) 2), u.2)
    else (c, r)

/-- One side's generation loop (`for i in range(DOM_LEVELS)`): the level
appended to the output always carries the cache's value for its price. -/
def gen_levels (priceOf : ℕ → ℚ) (fresh : ℕ → ℚ → RS → ℚ × RS)
    (updLo updHi : ℚ) (should_update : Bool) :
    List ℕ → Cache → RS → List Level × Cache × RS
  | [], c, r => ([], c, r)
  | i :: rest, c, r =>
    let p := priceOf i
    let s := gen_step priceOf fresh updLo updHi should_update i c r
    let v := (clookup s.1 p).getD 0
    let rest1 := gen_levels priceOf fresh updLo updHi should_update rest s.1 s.2
    (⟨p, v, pyRound (v * p) 2⟩ :: rest1.1, rest1.2.1, rest1.2.2)

/-- Cache cleanup (`get_dom_data`, lines 663-668): delete up to 10 cache
keys that are not part of the current snapshot.  `list(old_prices)`
enumerates a Python set in unspecified order; cache key order is used
here.  Returns the cleaned cache and the deleted keys. -/
def evict (c : Cache) (current_prices : List ℚ) : Cache × List ℚ :=
  let old := (c.map Prod.fst).filter (fun p => decide (p ∉ current_prices))
  let victims := old.take 10
  (victims.foldl cdel c, victims)

/-! ## Order-flow analysis (shared by both paths) -/

/-- `max(levels, key=lambda x: x['volume'])` with Python's first-maximum
tie behaviour, defaulting to `{'price': 0, 'volume': 0}`. -/
def max_by_volume (ls : List Level) : SLevel :=
  match ls with
  | [] => ⟨0, 0⟩
  | h :: t =>
    t.foldl (fun acc x => if x.volume > acc.volume then ⟨x.price, x.volume⟩ else acc)
      ⟨h.price, h.volume⟩

/-- Strongest level across `bids + asks` (first maximum), default
`(0, 0, 'NONE')`. -/
def strongest_of (all_levels : List (ℚ × ℚ × Side)) : ℚ × ℚ × Side :=
  match all_levels with
  | [] => (0, 0, Side.NONE)
  | h :: t => t.foldl (fun acc x => if x.2.1 > acc.2.1 then x else acc) h

/-- Sticky support / resistance update (`get_dom_data`, lines 650-653):
replace only on a more-than-20% volume improvement. -/
def sticky_update (stored : Option SLevel) (cand : SLevel) : SLevel :=
  match stored with
  | none => cand
  | some s => if cand.volume > s.volume * 1.2 then cand else s

/-- Buy / sell pressure percentages (`get_dom_data`, lines 623-624). -/
def pressures (total_bid_volume total_ask_volume : ℚ) : ℚ × ℚ :=
  let total_volume := total_bid_volume + total_ask_volume
  (if total_volume > 0 then pyRound (total_bid_volume / total_volume * 100) 1 else 50,
   if total_volume > 0 then pyRound (total_ask_volume / total_volume * 100) 1 else 50)

/-- Direction / confidence (`get_dom_data`, lines 627-640). -/
def direction_confidence (is_real : Bool) (imbalance : ℚ) : String × ℚ :=
  if is_real then ("REAL DATA", 100)
  else if imbalance > 10 then ("BULLISH", min 95 (50 + imbalance))
  else if imbalance < -10 then ("BEARISH", min 95 (50 + |imbalance|))
  else ("NEUTRAL", 50 - |imbalance|)

/-- Everything the order-flow section computes from the level lists. -/
structure OFOut where
  max_volume : ℚ
  total_bid_volume : ℚ
  total_ask_volume : ℚ
  buy_pressure : ℚ
  sell_pressure : ℚ
  direction : String
  confidence : ℚ
  stable_support : SLevel
  stable_resistance : SLevel
  strongest : ℚ × ℚ × Side

/-- Order-flow analysis (`get_dom_data`, lines 609-660). -/
def order_flow (stored_support stored_resistance : Option SLevel)
    (asks bids : List Level) (is_real : Bool) : OFOut :=
  let all_volumes := asks.map Level.volume ++ bids.map Level.volume
  let max_volume := match all_volumes with
    | [] => 1
    | h :: t => t.foldl max h
  let total_bid_volume := (bids.map Level.volume).sum
  let total_ask_volume := (asks.map Level.volume).sum
  let pr := pressures total_bid_volume total_ask_volume
  let dc := direction_confidence is_real (pr.1 - pr.2)
  let current_bid := max_by_volume bids
  let current_ask := max_by_volume asks
  let stable_support := sticky_update stored_support current_bid
  let stable_resistance := sticky_update stored_resistance current_ask
  let all_levels :=
    bids.map (fun b => (b.price, b.volume, Side.BID)) ++
      asks.map (fun a => (a.price, a.volume, Side.ASK))
  { max_volume := max_volume
    total_bid_volume := total_bid_volume
    total_ask_volume := total_ask_volume
    buy_pressure := pr.1
    sell_pressure := pr.2
    direction := dc.1
    confidence := dc.2
    stable_support := stable_support
    stable_resistance := stable_resistance
    strongest := strongest_of all_levels }

/-- Assemble the returned snapshot dict (`get_dom_data`, lines 670-715). -/
def build_snapshot (display_name : String) (tick : Tick) (info : SymbolInfo)
    (spread mid_price : ℚ) (asks bids : List Level) (is_real : Bool)
    (of : OFOut) : Snapshot :=
  let ez := calculate_entry_zones tick.bid tick.ask
      of.stable_support.price of.stable_resistance.price
      of.stable_support.volume of.stable_resistance.volume
      info.point info.digits
  { symbol := display_name
    bid := pyRound tick.bid info.digits
    ask := pyRound tick.ask info.digits
    spread := pyRound0 (spread / info.point)
    spread_pips :=
      if info.digits = 5 ∨ info.digits = 3 then pyRound (spread / info.point / 10) 1
      else pyRound (spread / info.point) 1
    mid_price := pyRound mid_price info.digits
    asks := asks
    bids := bids
    max_volume := pyRound of.max_volume 2
    digits := info.digits
    is_real_data := is_real
    analysis :=
      { buy_pressure := of.buy_pressure
        sell_pressure := of.sell_pressure
        direction := of.direction
        confidence := pyRound of.confidence 1
        strongest_price := of.strongest.1
        strongest_volume := pyRound of.strongest.2.1 2
        strongest_side := of.strongest.2.2
        total_bid_volume := pyRound of.total_bid_volume 2
        total_ask_volume := pyRound of.total_ask_volume 2
        support_price := pyRound of.stable_support.price info.digits
        support_volume := pyRound of.stable_support.volume 2
        resistance_price := pyRound of.stable_resistance.price info.digits
        resistance_volume := pyRound of.stable_resistance.volume 2 }
    signal := calculate_signal of.buy_pressure of.sell_pressure of.direction
        of.confidence of.total_bid_volume of.total_ask_volume of.strongest
    buy_zone := ez.1
    sell_zone := ez.2 }

/-! ## The two cycle paths and `get_dom_data` -/

/-- The synthetic ("reactive emulation") path of `get_dom_data` (lines
484-715), taken when no real book is available. -/
def synth_cycle (st : SymState) (tick : Tick) (info : SymbolInfo)
    (display_name : String) (r : RS) : CycleOut :=
  let mid_price := (tick.bid + tick.ask) / 2
  let spread := tick.ask - tick.bid
  let last_mid := st.last_price.getD mid_price
  let price_change := mid_price - last_mid
  let momentum0 : ℚ :=
    if price_change > 0 then 0.3 else if price_change < 0 then -0.3 else 0
  let sway := runiform (-0.1) 0.1 r
  let momentum := momentum0 + sway.1
  let bid_strength := 1.0 + momentum
  let ask_strength := 1.0 - momentum
  let cache0 := st.volume_cache.getD []
  let blocks0 := st.order_blocks.getD []
  let current_time := tick.time_msc
  let last_time := st.last_tick_time.getD 0
  let should_update := decide (current_time ≠ last_time)
  let step := level_step display_name mid_price info.point
  let mb := manage_blocks should_update mid_price step info.digits blocks0 sway.2
  let blocks := mb.1
  let ag := gen_levels (fun i => pyRound (tick.ask + i * step) info.digits)
      (ask_fresh_vol blocks ask_strength) 0.8 1.2 should_update
      (List.range DOM_LEVELS) cache0 mb.2
  let asks := ag.1
  let cs := rrandint 3 10 ag.2.2
  let bg := gen_levels (fun i => pyRound (tick.bid - i * step) info.digits)
      (bid_fresh_vol blocks bid_strength cs.1) 0.9 1.1 should_update
      (List.range DOM_LEVELS) ag.2.1 cs.2
  let bids := bg.1
  let of := order_flow st.stable_support st.stable_resistance asks bids false
  let current_prices := asks.map Level.price ++ bids.map Level.price
  let ev := evict bg.2.1 current_prices
  { result := .snap (build_snapshot display_name tick info spread mid_price
      asks bids false of)
    state :=
      { volume_cache := some ev.1
        last_tick_time := some current_time
        last_price := some mid_price
        order_blocks := some blocks
        stable_support := some of.stable_support
        stable_resistance := some of.stable_resistance }
    r := bg.2.2
    evicted := ev.2 }

/-- Stable ascending insertion by a strict comparison (Python `list.sort`
is stable; ties keep their original order). -/
def insertByLt (lt : Level → Level → Bool) (x : Level) : List Level → List Level
  | [] => [x]
  | y :: t => if lt x y then x :: y :: t else y :: insertByLt lt x t

def sortByLt (lt : Level → Level → Bool) (l : List Level) : List Level :=
  l.foldl (fun acc x => insertByLt lt x acc) []

/-- The real-market-depth path of `get_dom_data` (lines 458-482 and the
shared tail).  The return dict references the locals `spread` and
`mid_price`, which are assigned only on the synthetic branch, so
assembling the dict raises `UnboundLocalError`: the sticky
support / resistance updates (lines 650-653) have already happened, the
cache, blocks, last price and last tick time are untouched, and no
snapshot is returned. -/
def real_cycle (st : SymState) (tick : Tick) (info : SymbolInfo)
    (display_name : String) (real_book : List BookItem) (r : RS) : CycleOut :=
  let toLevel : BookItem → Level := fun item =>
    ⟨item.price, item.volume, pyRound (item.price * item.volume) 2⟩
  let asks0 := (real_book.filter (fun item => item.type = BookType.sell)).map toLevel
  let bids0 := (real_book.filter (fun item => item.type = BookType.buy)).map toLevel
  let asks := (sortByLt (fun a b => decide (a.price < b.price)) asks0).take DOM_LEVELS
  let bids := (sortByLt (fun a b => decide (b.price < a.price)) bids0).take DOM_LEVELS
  let of := order_flow st.stable_support st.stable_resistance asks bids true
  { result := .err
    state :=
      { st with
        stable_support := some of.stable_support
        stable_resistance := some of.stable_resistance }
    r := r
    evicted := [] }

/-- The (second, effective) `SimulatedDOMGenerator.get_dom_data`
(lines 440-715).  The tick, symbol info and real book are the cycle's
external inputs. -/
def get_dom_data (st : SymState) (tick? : Option Tick) (info? : Option SymbolInfo)
    (display_name : String) (real_book : List BookItem) (r : RS) : CycleOut :=
  match tick? with
  | none => { result := .noData, state := st, r := r, evicted := [] }
  | some tick =>
    match info? with
    | none => { result := .noData, state := st, r := r, evicted := [] }
    | some info =>
      if real_book ≠ [] then real_cycle st tick info display_name real_book r
      else synth_cycle st tick info display_name r

/-- External inputs of one cycle. -/
structure CycleIn where
  tick? : Option Tick
  info? : Option SymbolInfo
  display_name : String
  real_book : List BookItem
  r : RS

/-- Iterate `get_dom_data` over a sequence of cycles. -/
def run_cycles (st : SymState) (ins : List CycleIn) : SymState :=
  ins.foldl
    (fun s inp => (get_dom_data s inp.tick? inp.info? inp.display_name inp.real_book inp.r).state)
    st

/-! ## Statement helpers -/

/-- Decidable "strictly increasing in list order". -/
def strictIncB : List ℚ → Bool
  | [] => true
  | [_] => true
  | a :: b :: t => decide (a < b) && strictIncB (b :: t)

/-- Decidable "strictly decreasing in list order". -/
def strictDecB : List ℚ → Bool
  | [] => true
  | [_] => true
  | a :: b :: t => decide (b < a) && strictDecB (b :: t)

/-! ## Concrete evaluation scenarios

Used by the counterexamples and witnesses below.  `rngHalf` draws `1/2`
forever (no gate fires, every `uniform` returns its midpoint). -/

def rngHalf : RS := ⟨fun _ => 1/2, 0⟩

/-- A USDJPY cycle with `digits = 0`: the computed level step (0.6) is
smaller than the rounding unit (1), so adjacent level prices collide
after rounding.  The cache is prepopulated with every grid price and the
tick timestamp matches `last_tick_time`, so the cycle is deterministic. -/
def jpySt : SymState :=
  { volume_cache := some ((List.range 17).map (fun k => ((92 + k : ℚ), (1 : ℚ))))
    last_tick_time := some 7
    last_price := none
    order_blocks := some []
    stable_support := none
    stable_resistance := none }

def jpyTick : Tick := ⟨100, 100.01, 7⟩

def jpyInfo : SymbolInfo := ⟨0, 0.01⟩

def jpyOut : CycleOut := get_dom_data jpySt (some jpyTick) (some jpyInfo) "USDJPY" [] rngHalf

/-- An EURUSD cycle (5 digits, point `1e-5`): level step `0.0066`, grid
prices `1.1 + 0.0066 i` (asks) and `1.0999 - 0.0066 i` (bids), cache
prepopulated with volume 1 at every grid price, stale timestamp. -/
def eurPrices : List ℚ :=
  (List.range 15).map (fun i => pyRound (1.1 + i * 0.0066) 5) ++
    (List.range 15).map (fun i => pyRound (1.0999 - i * 0.0066) 5)

def eurCache : Cache := eurPrices.map (fun p => (p, (1 : ℚ)))

def eurSt : SymState :=
  { volume_cache := some eurCache
    last_tick_time := some 7
    last_price := none
    order_blocks := some []
    stable_support := none
    stable_resistance := none }

def eurTick : Tick := ⟨1.0999, 1.1, 7⟩

def eurInfo : SymbolInfo := ⟨5, 0.00001⟩

def eurOut1 : CycleOut := get_dom_data eurSt (some eurTick) (some eurInfo) "EURUSD" [] rngHalf

def eurOut2 : CycleOut :=
  get_dom_data eurOut1.state (some eurTick) (some eurInfo) "EURUSD" [] rngHalf

def eurSynthOut : CycleOut := synth_cycle eurSt eurTick eurInfo "EURUSD" rngHalf

/-- A present tick whose bid and ask are both zero (`EURUSD`, fresh
state): the effective `get_dom_data` has no zero-price guard and walks
the synthetic path. -/
def zeroTickOut : CycleOut :=
  get_dom_data initState (some ⟨0, 0, 1⟩) (some eurInfo) "EURUSD" [] rngHalf

/-- A cycle with a non-empty real order book. -/
def realBookSt : SymState :=
  { volume_cache := some [(1.05, 2)]
    last_tick_time := some 5
    last_price := some 1.05
    order_blocks := some [1.2]
    stable_support := none
    stable_resistance := none }

def realBookOut : CycleOut :=
  get_dom_data realBookSt (some ⟨1.1, 1.2, 7⟩) (some eurInfo) "EURUSD"
    [⟨1.2, 3, .sell⟩, ⟨1.1, 2, .buy⟩, ⟨1.3, 4, .sell⟩] rngHalf

/-- A same-price bid/ask tick (`bid = ask = 1.0`, digits 5): the rounded
ask grid and bid grid share the price `1.0`, so one cycle touches that
cache entry twice.  All grid prices are precached at volume 2 and the
tick timestamp advances, so both touches perturb the entry (draws of 0
give factors 0.8 and 0.9). -/
def crossPrices : List ℚ :=
  (List.range 15).map (fun i => pyRound (1 + i * 0.006) 5) ++
    (List.range 15).map (fun i => pyRound (1 - i * 0.006) 5)

def crossSt : SymState :=
  { volume_cache := some (crossPrices.map (fun p => (p, (2 : ℚ))))
    last_tick_time := some 5
    last_price := none
    order_blocks := some []
    stable_support := none
    stable_resistance := none }

def rngZero : RS := ⟨fun _ => 0, 0⟩

def crossOut1 : CycleOut :=
  get_dom_data crossSt (some ⟨1, 1, 7⟩) (some eurInfo) "EURUSD" [] rngZero

def crossOut2 : CycleOut :=
  get_dom_data crossOut1.state (some ⟨1, 1, 7⟩) (some eurInfo) "EURUSD" [] rngZero

/-- Stale variant of the shared-price scenario: both cycles observe
`time_msc = 7` with `last_tick_time` already 7, so neither cycle perturbs
the cache; the price `1.006` occurs exactly once per cycle. -/
def crossStStale : SymState :=
  { volume_cache := some (crossPrices.map (fun p => (p, (2 : ℚ))))
    last_tick_time := some 7
    last_price := none
    order_blocks := some []
    stable_support := none
    stable_resistance := none }

def crossOutS1 : CycleOut :=
  get_dom_data crossStStale (some ⟨1, 1, 7⟩) (some eurInfo) "EURUSD" [] rngZero

def crossOutS2 : CycleOut :=
  get_dom_data crossOutS1.state (some ⟨1, 1, 7⟩) (some eurInfo) "EURUSD" [] rngZero

/-- `crossStStale` with previously stored stable levels that the cycle's
candidates (volume 2) beat by more than 20%. -/
def stickySt : SymState :=
  { crossStStale with stable_support := some ⟨3, 1⟩, stable_resistance := some ⟨4, 1.5⟩ }

/-- A draw stream that fires the despawn gate: index 1 passes the outer
5% gate, index 2 refuses the spawn roll, index 3 passes the despawn roll,
index 4 picks the first block; every other draw is `1/2`. -/
def rngDespawn : RS := ⟨fun n => if n = 1 ∨ n = 3 ∨ n = 4 then 0 else 1/2, 0⟩

/-- The shared-price grid with an active order block at the in-window
price 1.006 and an advancing tick timestamp. -/
def despawnSt : SymState :=
  { volume_cache := some (crossPrices.map (fun p => (p, (2 : ℚ))))
    last_tick_time := some 5
    last_price := none
    order_blocks := some [1.006]
    stable_support := none
    stable_resistance := none }

def despawnOut : CycleOut :=
  get_dom_data despawnSt (some ⟨1, 1, 7⟩) (some eurInfo) "EURUSD" [] rngDespawn

/-- Stale variant of the block scenario for the despawn-gating witness. -/
def staleBlockSt : SymState := { despawnSt with last_tick_time := some 7 }

def staleBlockOut : CycleOut := synth_cycle staleBlockSt ⟨1, 1, 7⟩ eurInfo "EURUSD" rngHalf

/-- Level lists realising the C8 scenario: total bid volume 10, total ask
volume 6 (pressures 62.5 / 37.5, imbalance +25), strongest level a bid of
6 lots. -/
def c8bids : List Level := [⟨1.0, 6, 6⟩, ⟨0.9, 4, 3.6⟩]

def c8asks : List Level := [⟨1.2, 3, 3.6⟩, ⟨1.3, 3, 3.9⟩]

/-! ## Lemmas about rounding -/

lemma rhe_le (q : ℚ) : (rhe q : ℚ) ≤ q + 1/2 := by
  have h0 : ((⌊q⌋ : ℤ) : ℚ) ≤ q := Int.floor_le q
  have h1 : q < (⌊q⌋ : ℚ) + 1 := Int.lt_floor_add_one q
  unfold rhe
  split
  · push_cast
    linarith
  · rename_i h
    split
    · push_cast
      linarith
    · rename_i h2
      have : q - (⌊q⌋ : ℚ) = 1/2 := by
        push_cast at h h2 ⊢
        linarith
      split <;> push_cast <;> linarith

lemma rhe_ge (q : ℚ) : q - 1/2 ≤ (rhe q : ℚ) := by
  have h0 : ((⌊q⌋ : ℤ) : ℚ) ≤ q := Int.floor_le q
  have h1 : q < (⌊q⌋ : ℚ) + 1 := Int.lt_floor_add_one q
  unfold rhe
  split
  · rename_i h
    push_cast at h ⊢
    linarith
  · rename_i h
    split
    · push_cast
      linarith
    · split <;> push_cast <;> linarith

/-- Two values more than one rounding unit apart stay strictly ordered
after rounding to `d` decimal digits. -/
lemma pyRound_lt {a b : ℚ} (d : ℕ) (h : 1 / 10 ^ d < b - a) :
    pyRound a d < pyRound b d := by
  have hp : (0 : ℚ) < 10 ^ d := by positivity
  have hgap : 1 < (b - a) * 10 ^ d := by
    have := (div_lt_iff hp).mp h
    linarith
  have h1 : (rhe (a * 10 ^ d) : ℚ) < rhe (b * 10 ^ d) := by
    have ha := rhe_le (a * 10 ^ d)
    have hb := rhe_ge (b * 10 ^ d)
    nlinarith
  unfold pyRound
  rw [div_lt_div_iff hp hp]
  exact mul_lt_mul_of_pos_right h1 hp

/-! ## Lemmas about the cache and the generation loop -/

lemma clookup_cset_self (c : Cache) (p v : ℚ) :
    clookup (cset c p v) p = some v := by
  induction c with
  | nil => simp [cset, clookup]
  | cons h t ih =>
    obtain ⟨q, w⟩ := h
    by_cases hq : q = p
    · simp [cset, clookup, hq]
    · simp [cset, clookup, hq, ih]

lemma clookup_cset_ne (c : Cache) {p x : ℚ} (v : ℚ) (hx : x ≠ p) :
    clookup (cset c p v) x = clookup c x := by
  induction c with
  | nil => simp [cset, clookup, Ne.symm hx]
  | cons h t ih =>
    obtain ⟨q, w⟩ := h
    by_cases hq : q = p
    · subst hq
      simp [cset, clookup, Ne.symm hx]
    · simp only [cset, if_neg hq, clookup]
      by_cases hqx : q = x <;> simp [hqx, ih]

lemma clookup_cdel_ne (c : Cache) {p x : ℚ} (hx : x ≠ p) :
    clookup (cdel c p) x = clookup c x := by
  induction c with
  | nil => simp [cdel]
  | cons h t ih =>
    obtain ⟨q, w⟩ := h
    by_cases hq : q = p
    · subst hq
      simp [cdel, clookup, Ne.symm hx]
    · simp only [cdel, if_neg hq, clookup]
      by_cases hqx : q = x <;> simp [hqx, ih]

lemma lremove_length_le (l : List ℚ) (p : ℚ) :
    (lremove l p).length ≤ l.length := by
  induction l with
  | nil => simp [lremove]
  | cons x t ih =>
    by_cases hx : x = p
    · simp [lremove, hx]
    · simp only [lremove, if_neg hx, List.length_cons]
      omega


lemma clookup_cset_isSome (c : Cache) {x : ℚ} (p v : ℚ)
    (h : (clookup c x).isSome) : (clookup (cset c p v) x).isSome := by
  by_cases hx : x = p
  · subst hx
    rw [clookup_cset_self]
    rfl
  · rwa [clookup_cset_ne c v hx]

lemma getD_of_isSome {o : Option ℚ} (h : o.isSome) : o = some (o.getD 0) := by
  cases o with
  | none => simp at h
  | some v => rfl

section GenLemmas

variable (P : ℕ → ℚ) (F : ℕ → ℚ → RS → ℚ × RS) (lo hi : ℚ) (su : Bool)

lemma gen_step_self (i : ℕ) (c : Cache) (r : RS) :
    (clookup (gen_step P F lo hi su i c r).1 (P i)).isSome := by
  unfold gen_step
  cases hc : clookup c (P i) with
  | none => simp [hc, clookup_cset_self]
  | some v =>
    cases su with
    | true => simp [hc, clookup_cset_self]
    | false => simp [hc]

lemma gen_step_ne (i : ℕ) (c : Cache) (r : RS) {x : ℚ} (hx : x ≠ P i) :
    clookup (gen_step P F lo hi su i c r).1 x = clookup c x := by
  unfold gen_step
  cases hc : clookup c (P i) with
  | none =>
    simp only [hc]
    exact clookup_cset_ne c _ hx
  | some v =>
    cases su with
    | true =>
      simp only [hc, if_true]
      exact clookup_cset_ne c _ hx
    | false => simp [hc]

lemma gen_step_isSome_mono (i : ℕ) (c : Cache) (r : RS) {x : ℚ}
    (h : (clookup c x).isSome) :
    (clookup (gen_step P F lo hi su i c r).1 x).isSome := by
  by_cases hx : x = P i
  · subst hx
    exact gen_step_self P F lo hi su i c r
  · rwa [gen_step_ne P F lo hi su i c r hx]

/-- When the tick timestamp did not advance, an iteration leaves a cached
price completely alone. -/
lemma gen_step_stale (i : ℕ) (c : Cache) (r : RS) {v : ℚ}
    (hsu : su = false) (hc : clookup c (P i) = some v) :
    gen_step P F lo hi su i c r = (c, r) := by
  subst hsu
  unfold gen_step
  simp [hc]

lemma gen_length (idxs : List ℕ) (c : Cache) (r : RS) :
    (gen_levels P F lo hi su idxs c r).1.length = idxs.length := by
  induction idxs generalizing c r with
  | nil => simp [gen_levels]
  | cons i rest ih => simp [gen_levels, ih]

lemma gen_prices (idxs : List ℕ) (c : Cache) (r : RS) :
    (gen_levels P F lo hi su idxs c r).1.map Level.price = idxs.map P := by
  induction idxs generalizing c r with
  | nil => simp [gen_levels]
  | cons i rest ih => simp [gen_levels, ih]

/-- The loop writes only at the prices of the levels it produces. -/
lemma gen_lookup_of_not_mem (idxs : List ℕ) (c : Cache) (r : RS) {p : ℚ}
    (hp : p ∉ idxs.map P) :
    clookup (gen_levels P F lo hi su idxs c r).2.1 p = clookup c p := by
  induction idxs generalizing c r with
  | nil => simp [gen_levels]
  | cons i rest ih =>
    simp only [List.map_cons, List.mem_cons, not_or] at hp
    obtain ⟨hpi, hrest⟩ := hp
    simp only [gen_levels]
    rw [ih _ _ hrest]
    exact gen_step_ne P F lo hi su i c r hpi

/-- Cache keys are never deleted during the loop. -/
lemma gen_isSome_mono (idxs : List ℕ) (c : Cache) (r : RS) {p : ℚ}
    (h : (clookup c p).isSome) :
    (clookup (gen_levels P F lo hi su idxs c r).2.1 p).isSome := by
  induction idxs generalizing c r with
  | nil => simpa [gen_levels]
  | cons i rest ih =>
    simp only [gen_levels]
    exact ih _ _ (gen_step_isSome_mono P F lo hi su i c r h)

/-- Every produced level's price is in the cache once the loop ends. -/
lemma gen_mem_cache (idxs : List ℕ) (c : Cache) (r : RS) {l : Level}
    (hl : l ∈ (gen_levels P F lo hi su idxs c r).1) :
    (clookup (gen_levels P F lo hi su idxs c r).2.1 l.price).isSome := by
  induction idxs generalizing c r with
  | nil => simp [gen_levels] at hl
  | cons i rest ih =>
    simp only [gen_levels, List.mem_cons] at hl ⊢
    rcases hl with hl | hl
    · subst hl
      exact gen_isSome_mono P F lo hi su rest _ _ (gen_step_self P F lo hi su i c r)
    · exact ih _ _ hl

/-- If a price occurs exactly once among the produced levels, the final
cache holds exactly that level's volume for it. -/
lemma gen_val_of_unique (idxs : List ℕ) (c : Cache) (r : RS) {l : Level}
    (hl : l ∈ (gen_levels P F lo hi su idxs c r).1)
    (huniq : ((gen_levels P F lo hi su idxs c r).1.map Level.price).countP
      (fun x => decide (x = l.price)) = 1) :
    clookup (gen_levels P F lo hi su idxs c r).2.1 l.price = some l.volume := by
  induction idxs generalizing c r with
  | nil => simp [gen_levels] at hl
  | cons i rest ih =>
    simp only [gen_levels, List.mem_cons, List.map_cons, List.countP_cons,
      gen_prices] at hl huniq ⊢
    rcases hl with hl | hl
    · have hprice : l.price = P i := by rw [hl]
      have hvol : l.volume =
          (clookup (gen_step P F lo hi su i c r).1 (P i)).getD 0 := by rw [hl]
      rw [hprice] at huniq
      have hrest0 : ((rest.map P).countP (fun x => decide (x = P i))) = 0 := by
        split at huniq
        · omega
        · rename_i hcond
          exact absurd (by simp) hcond
      have hnot : P i ∉ rest.map P := by
        intro hmem
        have h0 := List.countP_eq_zero.mp hrest0 _ hmem
        simp at h0
      rw [hprice, hvol, gen_lookup_of_not_mem P F lo hi su rest _ _ hnot]
      exact getD_of_isSome (gen_step_self P F lo hi su i c r)
    · have hmem1 : (1 : ℕ) ≤ (rest.map P).countP (fun x => decide (x = l.price)) := by
        have hm : l.price ∈ rest.map P := by
          have := List.mem_map_of_mem Level.price hl
          rwa [gen_prices] at this
        have hpos : 0 < (rest.map P).countP (fun x => decide (x = l.price)) :=
          List.countP_pos.mpr ⟨l.price, hm, by simp⟩
        omega
      have huniq' : ((gen_levels P F lo hi su rest
          (gen_step P F lo hi su i c r).1 (gen_step P F lo hi su i c r).2).1.map
            Level.price).countP (fun x => decide (x = l.price)) = 1 := by
        rw [gen_prices]
        split at huniq
        · omega
        · omega
      exact ih _ _ hl huniq'

/-- A stale cycle (`should_update = false`) never changes the cache entry
of an already-cached price. -/
lemma gen_stale_lookup (idxs : List ℕ) (c : Cache) (r : RS) {p : ℚ}
    (hsu : su = false) (h : (clookup c p).isSome) :
    clookup (gen_levels P F lo hi su idxs c r).2.1 p = clookup c p := by
  induction idxs generalizing c r with
  | nil => simp [gen_levels]
  | cons i rest ih =>
    simp only [gen_levels]
    by_cases hpi : p = P i
    · subst hpi
      obtain ⟨v, hv⟩ := Option.isSome_iff_exists.mp h
      rw [gen_step_stale P F lo hi su i c r hsu hv]
      exact ih _ _ h
    · have hne := gen_step_ne P F lo hi su i c r hpi
      rw [ih _ _ (by rwa [hne]), hne]

/-- A stale cycle returns exactly the cached volume for every level whose
price was already cached. -/
lemma gen_stale_vol (idxs : List ℕ) (c : Cache) (r : RS) {l : Level} {w : ℚ}
    (hsu : su = false) (hl : l ∈ (gen_levels P F lo hi su idxs c r).1)
    (hc : clookup c l.price = some w) : l.volume = w := by
  induction idxs generalizing c r with
  | nil => simp [gen_levels] at hl
  | cons i rest ih =>
    simp only [gen_levels, List.mem_cons] at hl
    rcases hl with hl | hl
    · have hprice : l.price = P i := by rw [hl]
      have hvol : l.volume =
          (clookup (gen_step P F lo hi su i c r).1 (P i)).getD 0 := by rw [hl]
      rw [hprice] at hc
      rw [hvol, gen_step_stale P F lo hi su i c r hsu hc]
      simp [hc]
    · apply ih _ _ hl
      by_cases hpi : l.price = P i
      · rw [hpi] at hc ⊢
        rw [gen_step_stale P F lo hi su i c r hsu hc]
        exact hc
      · rw [gen_step_ne P F lo hi su i c r hpi]
        exact hc

end GenLemmas

/-! ## Lemmas about eviction -/

lemma foldl_cdel_lookup (vs : List ℚ) (c : Cache) {p : ℚ} (h : ∀ q ∈ vs, q ≠ p) :
    clookup (vs.foldl cdel c) p = clookup c p := by
  induction vs generalizing c with
  | nil => rfl
  | cons q t ih =>
    simp only [List.foldl_cons]
    rw [ih _ (fun x hx => h x (List.mem_cons_of_mem q hx))]
    exact clookup_cdel_ne c (Ne.symm (h q (List.mem_cons_self q t)))

lemma evict_not_cur (c : Cache) (cur : List ℚ) :
    ∀ p ∈ (evict c cur).2, p ∉ cur := by
  intro p hp
  have hmem : p ∈ (c.map Prod.fst).filter (fun q => decide (q ∉ cur)) :=
    List.mem_of_mem_take hp
  have := (List.mem_filter.mp hmem).2
  simpa using this

lemma evict_len (c : Cache) (cur : List ℚ) : (evict c cur).2.length ≤ 10 := by
  unfold evict
  simpa using List.length_take_le 10 _

lemma evict_lookup_of_mem (c : Cache) (cur : List ℚ) {p : ℚ} (hp : p ∈ cur) :
    clookup (evict c cur).1 p = clookup c p := by
  apply foldl_cdel_lookup
  intro q hq
  intro hqp
  exact evict_not_cur c cur q hq (hqp ▸ hp)

lemma evict_lookup_of_not_victim (c : Cache) (cur : List ℚ) {p : ℚ}
    (hp : p ∉ (evict c cur).2) :
    clookup (evict c cur).1 p = clookup c p := by
  apply foldl_cdel_lookup
  intro q hq hqp
  exact hp (hqp ▸ hq)

/-! ## Lemmas about order-block management -/

lemma spawn_step_len (mp stp : ℚ) (d : ℕ) (b : List ℚ) (r : RS) :
    (spawn_step mp stp d b r).1.length ≤ max b.length ORDER_BLOCK_MAX_COUNT := by
  unfold spawn_step
  dsimp only
  split
  · rename_i hlt
    have hadd : ∀ pl : ℚ,
        (if pl ∈ b then b else b ++ [pl]).length ≤ max b.length ORDER_BLOCK_MAX_COUNT := by
      intro pl
      split
      · exact le_max_left _ _
      · simp only [List.length_append, List.length_cons, List.length_nil]
        have h5 : b.length + 1 ≤ ORDER_BLOCK_MAX_COUNT := hlt
        exact le_trans h5 (le_max_right _ _)
    split
    · exact hadd _
    · exact le_max_left _ _
  · exact le_max_left _ _

lemma despawn_step_len (b : List ℚ) (r : RS) :
    (despawn_step b r).1.length ≤ b.length := by
  unfold despawn_step
  dsimp only
  split
  · split
    · exact lremove_length_le _ _
    · exact le_refl _
  · exact le_refl _

lemma manage_blocks_len (su : Bool) (mp stp : ℚ) (d : ℕ) (b : List ℚ) (r : RS) :
    (manage_blocks su mp stp d b r).1.length ≤ max b.length ORDER_BLOCK_MAX_COUNT := by
  unfold manage_blocks
  dsimp only
  split
  · split
    · exact le_trans (despawn_step_len _ _) (spawn_step_len mp stp d b _)
    · exact le_max_left _ _
  · exact le_max_left _ _

lemma manage_blocks_stale (mp stp : ℚ) (d : ℕ) (b : List ℚ) (r : RS) :
    manage_blocks false mp stp d b r = (b, r) := by
  simp [manage_blocks]

/-! ## Sticky level update -/

lemma sticky_update_ne {s : SLevel} {c : SLevel}
    (h : sticky_update (some s) c ≠ s) :
    sticky_update (some s) c = c ∧ c.volume > s.volume * 1.2 := by
  by_cases hc : c.volume > s.volume * 1.2
  · exact ⟨by simp [sticky_update, hc], hc⟩
  · exact absurd (by simp [sticky_update, hc]) h

lemma mem_of_head_eq {α : Type} {l : List α} {x : α} (h : l.head? = some x) :
    x ∈ l := by
  cases l with
  | nil => simp at h
  | cons a t =>
    simp only [List.head?_cons, Option.some.injEq] at h
    exact h ▸ List.Mem.head t

/-! ## Strict monotonicity over an index range -/

lemma strictIncB_range' (f : ℕ → ℚ) (h : ∀ i, f i < f (i + 1)) :
    ∀ (n s : ℕ), strictIncB ((List.range' s n).map f) = true := by
  intro n
  induction n with
  | zero => intro s; rfl
  | succ m ih =>
    intro s
    rw [List.range'_succ]
    cases m with
    | zero => rfl
    | succ k =>
      rw [List.range'_succ, List.map_cons, List.map_cons]
      show (decide (f s < f (s + 1)) && strictIncB (f (s + 1) :: _)) = true
      rw [Bool.and_eq_true, decide_eq_true_eq]
      refine ⟨h s, ?_⟩
      have hih := ih (s + 1)
      rwa [List.range'_succ, List.map_cons] at hih

lemma strictDecB_range' (f : ℕ → ℚ) (h : ∀ i, f (i + 1) < f i) :
    ∀ (n s : ℕ), strictDecB ((List.range' s n).map f) = true := by
  intro n
  induction n with
  | zero => intro s; rfl
  | succ m ih =>
    intro s
    rw [List.range'_succ]
    cases m with
    | zero => rfl
    | succ k =>
      rw [List.range'_succ, List.map_cons, List.map_cons]
      show (decide (f (s + 1) < f s) && strictDecB (f (s + 1) :: _)) = true
      rw [Bool.and_eq_true, decide_eq_true_eq]
      refine ⟨h s, ?_⟩
      have hih := ih (s + 1)
      rwa [List.range'_succ, List.map_cons] at hih

/-! ## Shape of a synthetic-path cycle -/

lemma snap_eq_theSnap {c : CycleOut} {s : Snapshot}
    (h : c.result = DomResult.snap s) : s = theSnap c.result := by
  rw [h]
  rfl

lemma get_dom_data_nil_book (st : SymState) (tick : Tick) (info : SymbolInfo)
    (name : String) (r : RS) :
    get_dom_data st (some tick) (some info) name [] r =
      synth_cycle st tick info name r := by
  simp [get_dom_data]

lemma get_dom_data_real_err (st : SymState) (tick : Tick) (info : SymbolInfo)
    (name : String) (bi : BookItem) (rest : List BookItem) (r : RS) :
    (get_dom_data st (some tick) (some info) name (bi :: rest) r).result =
      DomResult.err := by
  simp [get_dom_data, real_cycle]

section SynthShape

variable (st : SymState) (tick : Tick) (info : SymbolInfo) (name : String) (r : RS)

lemma synth_asks_map :
    (theSnap (synth_cycle st tick info name r).result).asks.map Level.price =
      (List.range DOM_LEVELS).map (fun i =>
        pyRound (tick.ask + i * level_step name ((tick.bid + tick.ask) / 2) info.point)
          info.digits) := by
  unfold synth_cycle
  dsimp only
  simp only [theSnap]
  unfold build_snapshot
  dsimp only
  exact gen_prices _ _ _ _ _ _ _ _

lemma synth_bids_map :
    (theSnap (synth_cycle st tick info name r).result).bids.map Level.price =
      (List.range DOM_LEVELS).map (fun i =>
        pyRound (tick.bid - i * level_step name ((tick.bid + tick.ask) / 2) info.point)
          info.digits) := by
  unfold synth_cycle
  dsimp only
  simp only [theSnap]
  unfold build_snapshot
  dsimp only
  exact gen_prices _ _ _ _ _ _ _ _

lemma synth_asks_len :
    (theSnap (synth_cycle st tick info name r).result).asks.length = DOM_LEVELS := by
  have h := congrArg List.length (synth_asks_map st tick info name r)
  simpa using h

lemma synth_bids_len :
    (theSnap (synth_cycle st tick info name r).result).bids.length = DOM_LEVELS := by
  have h := congrArg List.length (synth_bids_map st tick info name r)
  simpa using h

lemma synth_not_real :
    (theSnap (synth_cycle st tick info name r).result).is_real_data = false := by
  unfold synth_cycle
  dsimp only
  simp only [theSnap]
  unfold build_snapshot
  dsimp only

end SynthShape

/-! ## Claims -/

set_option maxHeartbeats 1000000 in
/-- C1 (corrected).  Claim: every snapshot returned by `get_dom_data` has
exactly `DOM_LEVELS = 15` ask and bid levels, with strictly increasing
ask prices and strictly decreasing bid prices, including real-book
cycles.  What holds: every returned snapshot is synthetic (the real-book
path raises before returning) and always has exactly 15 asks and 15
bids, unconditionally; the strict price monotonicity additionally needs
the computed level step to exceed one unit of the symbol's quote
precision (`1/10^digits`), since otherwise rounding the level grid to
`digits` decimals can collide adjacent prices. -/
theorem C1_snapshot_depth_monotone
    (st : SymState) (tick : Tick) (info : SymbolInfo) (name : String)
    (book : List BookItem) (r : RS) (s : Snapshot)
    (h : (get_dom_data st (some tick) (some info) name book r).result =
      DomResult.snap s) :
    s.asks.length = DOM_LEVELS ∧ s.bids.length = DOM_LEVELS ∧
      s.is_real_data = false ∧
      (1 / 10 ^ info.digits <
          level_step name ((tick.bid + tick.ask) / 2) info.point →
        strictIncB (s.asks.map Level.price) = true ∧
        strictDecB (s.bids.map Level.price) = true) := by
  cases book with
  | cons bi rest =>
    rw [get_dom_data_real_err st tick info name bi rest r] at h
    exact absurd h (by simp)
  | nil =>
    rw [get_dom_data_nil_book st tick info name r] at h
    have hs := snap_eq_theSnap h
    subst hs
    refine ⟨synth_asks_len st tick info name r, synth_bids_len st tick info name r,
      synth_not_real st tick info name r, ?_⟩
    intro hstep
    have hinc : ∀ i : ℕ,
        pyRound (tick.ask + i * level_step name ((tick.bid + tick.ask) / 2) info.point)
            info.digits <
          pyRound (tick.ask + (((i + 1 : ℕ)) : ℚ) *
              level_step name ((tick.bid + tick.ask) / 2) info.point) info.digits := by
      intro i
      apply pyRound_lt
      have harith : (tick.ask + ((i + 1 : ℕ) : ℚ) *
            level_step name ((tick.bid + tick.ask) / 2) info.point) -
          (tick.ask + (i : ℚ) * level_step name ((tick.bid + tick.ask) / 2) info.point) =
            level_step name ((tick.bid + tick.ask) / 2) info.point := by
        push_cast
        ring
      rw [harith]
      exact hstep
    have hdec : ∀ i : ℕ,
        pyRound (tick.bid - (((i + 1 : ℕ)) : ℚ) *
            level_step name ((tick.bid + tick.ask) / 2) info.point) info.digits <
          pyRound (tick.bid - i * level_step name ((tick.bid + tick.ask) / 2) info.point)
            info.digits := by
      intro i
      apply pyRound_lt
      have harith : (tick.bid - (i : ℚ) *
            level_step name ((tick.bid + tick.ask) / 2) info.point) -
          (tick.bid - ((i + 1 : ℕ) : ℚ) *
            level_step name ((tick.bid + tick.ask) / 2) info.point) =
            level_step name ((tick.bid + tick.ask) / 2) info.point := by
        push_cast
        ring
      rw [harith]
      exact hstep
    refine ⟨?_, ?_⟩
    · rw [synth_asks_map st tick info name r, List.range_eq_range']
      exact strictIncB_range'
        (fun i : ℕ => pyRound (tick.ask + (i : ℚ) *
          level_step name ((tick.bid + tick.ask) / 2) info.point) info.digits)
        hinc DOM_LEVELS 0
    · rw [synth_bids_map st tick info name r, List.range_eq_range']
      exact strictDecB_range'
        (fun i : ℕ => pyRound (tick.bid - (i : ℚ) *
          level_step name ((tick.bid + tick.ask) / 2) info.point) info.digits)
        hdec DOM_LEVELS 0

set_option maxRecDepth 8000 in
/-- C1 counterexample: a USDJPY cycle with `digits = 0` returns a
snapshot whose second and third ask prices coincide (the level step 0.6
vanishes under rounding to 0 decimals), so the ask prices are not
strictly increasing. -/
theorem C1_counterexample :
    jpyOut.result.isSnap = true ∧
      (theSnap jpyOut.result).asks.length = DOM_LEVELS ∧
      strictIncB ((theSnap jpyOut.result).asks.map Level.price) = false := by
  with_unfolding_all decide

set_option maxRecDepth 8000 in
/-- C1 witness: a deterministic EURUSD cycle satisfying the step
hypothesis. -/
theorem C1_witness :
    (theSnap eurOut1.result).asks.length = DOM_LEVELS ∧
      (theSnap eurOut1.result).bids.length = DOM_LEVELS ∧
      (theSnap eurOut1.result).is_real_data = false ∧
      strictIncB ((theSnap eurOut1.result).asks.map Level.price) = true ∧
      strictDecB ((theSnap eurOut1.result).bids.map Level.price) = true := by
  have h := C1_snapshot_depth_monotone eurSt eurTick eurInfo "EURUSD" [] rngHalf
    (theSnap eurOut1.result) (by with_unfolding_all rfl)
  have hm := h.2.2.2 (by with_unfolding_all decide)
  exact ⟨h.1, h.2.1, h.2.2.1, hm.1, hm.2⟩

set_option maxRecDepth 2000 in
/-- C2 (code_bug).  Claim: a missing tick, or a tick with zero bid or
zero ask, yields `None` and leaves all per-symbol state untouched.  The
effective (second) `get_dom_data` definition only checks for a missing
tick; the zero-price guard lives in the shadowed first definition and is
dead code.  Evaluating the embedded code at a present tick with
`bid = ask = 0` on a fresh state: a full snapshot is produced and the
symbol's last price, last tick time and order-block entry are all
mutated, contradicting the claim.  (A missing tick does return `None` without
mutation, per the first conjunct.) -/
theorem C2_zero_tick_is_processed :
    ((get_dom_data initState none (some eurInfo) "EURUSD" [] rngHalf).result =
        DomResult.noData ∧
      (get_dom_data initState none (some eurInfo) "EURUSD" [] rngHalf).state =
        initState) ∧
    zeroTickOut.result.isSnap = true ∧
    zeroTickOut.state.last_price = some 0 ∧
    zeroTickOut.state.last_tick_time = some 1 ∧
    zeroTickOut.state.order_blocks = some [] := by
  refine ⟨⟨rfl, rfl⟩, ?_, ?_, ?_, ?_⟩
  · with_unfolding_all rfl
  · with_unfolding_all rfl
  · with_unfolding_all rfl
  · with_unfolding_all rfl

set_option maxRecDepth 8000 in
/-- C3 (code_bug).  Claim: a tick carrying a non-empty real book yields
a snapshot flagged `is_real_data = true` with well-defined `spread` and
`mid_price`, bypassing cache and order-block state.  In the code the
locals `spread` and `mid_price` are assigned only on the synthetic
branch, so building the return dict on the real-book path raises
`UnboundLocalError`; no snapshot is ever returned there.  The cache,
order blocks, last price and last tick time are indeed left untouched,
and the sticky support/resistance updates (which run before the raise)
have already happened. -/
theorem C3_real_book_raises :
    realBookOut.result = DomResult.err ∧
      realBookOut.state.volume_cache = some [(1.05, 2)] ∧
      realBookOut.state.order_blocks = some [1.2] ∧
      realBookOut.state.last_price = some 1.05 ∧
      realBookOut.state.last_tick_time = some 5 ∧
      realBookOut.state.stable_support = some ⟨1.1, 2⟩ ∧
      realBookOut.state.stable_resistance = some ⟨1.3, 4⟩ := by
  with_unfolding_all decide

/-- Uniqueness of a price across an ask run followed by a bid run (on the
ask run's final cache), then eviction against the combined price list:
the final cache holds that level's volume. -/
lemma gen2_evict_unique
    (PA PB : ℕ → ℚ) (FA FB : ℕ → ℚ → RS → ℚ × RS)
    (loA hiA loB hiB : ℚ) (su : Bool) (nA nB : List ℕ)
    (c0 : Cache) (rA rB : RS) {l : Level}
    (hl : l ∈ (gen_levels PA FA loA hiA su nA c0 rA).1 ++
      (gen_levels PB FB loB hiB su nB (gen_levels PA FA loA hiA su nA c0 rA).2.1 rB).1)
    (huniq : ((((gen_levels PA FA loA hiA su nA c0 rA).1 ++
        (gen_levels PB FB loB hiB su nB (gen_levels PA FA loA hiA su nA c0 rA).2.1 rB).1).map
          Level.price).countP (fun x => decide (x = l.price))) = 1) :
    clookup (evict
      (gen_levels PB FB loB hiB su nB (gen_levels PA FA loA hiA su nA c0 rA).2.1 rB).2.1
      ((gen_levels PA FA loA hiA su nA c0 rA).1.map Level.price ++
        (gen_levels PB FB loB hiB su nB (gen_levels PA FA loA hiA su nA c0 rA).2.1 rB).1.map
          Level.price)).1 l.price = some l.volume := by
  rw [List.map_append, List.countP_append] at huniq
  rcases List.mem_append.mp hl with hmem | hmem
  · have hA1 : (1 : ℕ) ≤ ((gen_levels PA FA loA hiA su nA c0 rA).1.map
        Level.price).countP (fun x => decide (x = l.price)) :=
      Nat.one_le_iff_ne_zero.mpr (fun h0 => by
        have h1 := List.countP_eq_zero.mp h0 _ (List.mem_map_of_mem Level.price hmem)
        simp at h1)
    have hA : ((gen_levels PA FA loA hiA su nA c0 rA).1.map Level.price).countP
        (fun x => decide (x = l.price)) = 1 := by omega
    have hB0 : ((gen_levels PB FB loB hiB su nB
        (gen_levels PA FA loA hiA su nA c0 rA).2.1 rB).1.map Level.price).countP
          (fun x => decide (x = l.price)) = 0 := by omega
    have hnotB : l.price ∉ nB.map PB := by
      rw [← gen_prices PB FB loB hiB su nB (gen_levels PA FA loA hiA su nA c0 rA).2.1 rB]
      intro hmemB
      have h0 := List.countP_eq_zero.mp hB0 _ hmemB
      simp at h0
    rw [evict_lookup_of_mem _ _
      (List.mem_append_left _ (List.mem_map_of_mem Level.price hmem))]
    rw [gen_lookup_of_not_mem PB FB loB hiB su nB _ rB hnotB]
    exact gen_val_of_unique PA FA loA hiA su nA c0 rA hmem hA
  · have hB : ((gen_levels PB FB loB hiB su nB
        (gen_levels PA FA loA hiA su nA c0 rA).2.1 rB).1.map Level.price).countP
          (fun x => decide (x = l.price)) = 1 := by
      have hB1 : (1 : ℕ) ≤ ((gen_levels PB FB loB hiB su nB
          (gen_levels PA FA loA hiA su nA c0 rA).2.1 rB).1.map Level.price).countP
            (fun x => decide (x = l.price)) :=
        Nat.one_le_iff_ne_zero.mpr (fun h0 => by
          have h1 := List.countP_eq_zero.mp h0 _ (List.mem_map_of_mem Level.price hmem)
          simp at h1)
      omega
    rw [evict_lookup_of_mem _ _
      (List.mem_append_right _ (List.mem_map_of_mem Level.price hmem))]
    exact gen_val_of_unique PB FB loB hiB su nB _ rB hmem hB

/-- Two stale runs in sequence return the cached volume for every level
whose price was already cached before the first run. -/
lemma gen2_stale_vol
    (PA PB : ℕ → ℚ) (FA FB : ℕ → ℚ → RS → ℚ × RS)
    (loA hiA loB hiB : ℚ) (nA nB : List ℕ) (c0 : Cache) (rA rB : RS)
    {l : Level} {v : ℚ}
    (hc : clookup c0 l.price = some v)
    (hl : l ∈ (gen_levels PA FA loA hiA false nA c0 rA).1 ++
      (gen_levels PB FB loB hiB false nB
        (gen_levels PA FA loA hiA false nA c0 rA).2.1 rB).1) :
    l.volume = v := by
  rcases List.mem_append.mp hl with hmem | hmem
  · exact gen_stale_vol PA FA loA hiA false nA c0 rA rfl hmem hc
  · refine gen_stale_vol PB FB loB hiB false nB _ rB rfl hmem ?_
    rw [gen_stale_lookup PA FA loA hiA false nA c0 rA rfl
      (Option.isSome_iff_exists.mpr ⟨v, hc⟩)]
    exact hc

section SynthCache

variable (st : SymState) (tick : Tick) (info : SymbolInfo) (name : String) (r : RS)

lemma synth_last_tick :
    (synth_cycle st tick info name r).state.last_tick_time = some tick.time_msc := by
  unfold synth_cycle
  dsimp only

/-- After a synthetic cycle, a price that occurs exactly once among the
snapshot's levels is cached at exactly that level's volume. -/
lemma synth_unique_cache {l : Level}
    (hl : l ∈ (theSnap (synth_cycle st tick info name r).result).asks ++
      (theSnap (synth_cycle st tick info name r).result).bids)
    (huniq : ((((theSnap (synth_cycle st tick info name r).result).asks ++
        (theSnap (synth_cycle st tick info name r).result).bids).map Level.price).countP
      (fun x => decide (x = l.price))) = 1) :
    clookup ((synth_cycle st tick info name r).state.volume_cache.getD []) l.price =
      some l.volume := by
  unfold synth_cycle at hl huniq ⊢
  dsimp only at hl huniq ⊢
  simp only [theSnap] at hl huniq
  unfold build_snapshot at hl huniq
  dsimp only at hl huniq
  rw [Option.getD_some]
  exact gen2_evict_unique _ _ _ _ _ _ _ _ _ _ _ _ _ _ hl huniq

/-- On a stale cycle (tick timestamp unchanged), every snapshot level at
an already-cached price carries exactly the cached volume. -/
lemma synth_stale_vol {l : Level} {v : ℚ}
    (hstale : tick.time_msc = st.last_tick_time.getD 0)
    (hc : clookup (st.volume_cache.getD []) l.price = some v)
    (hl : l ∈ (theSnap (synth_cycle st tick info name r).result).asks ++
      (theSnap (synth_cycle st tick info name r).result).bids) :
    l.volume = v := by
  have hsu : decide (tick.time_msc ≠ st.last_tick_time.getD 0) = false := by
    simp [hstale]
  unfold synth_cycle at hl
  dsimp only at hl
  simp only [theSnap] at hl
  unfold build_snapshot at hl
  dsimp only at hl
  rw [hsu] at hl
  exact gen2_stale_vol _ _ _ _ _ _ _ _ _ _ _ _ _ hc hl
end SynthCache

set_option maxRecDepth 8000 in
/-- C4 counterexample: a tick with `bid = ask = 1.0` makes the rounded
ask grid and bid grid share the price `1.0`.  Two consecutive cycles both
observe `time_msc = 7`; the cached price `1.0` is returned with volume
1.6 (ask side) in the first cycle but 1.44 in the second, because the
first cycle's timestamp advance perturbed the entry twice (once per
side).  So "the cached volume returned for that price is identical in
both cycles" fails as stated. -/
theorem C4_counterexample :
    clookup (crossSt.volume_cache.getD []) 1 = some 2 ∧
      crossOut1.result.isSnap = true ∧ crossOut2.result.isSnap = true ∧
      (theSnap crossOut1.result).asks.head? = some ⟨1, 1.6, 1.6⟩ ∧
      (theSnap crossOut2.result).asks.head? = some ⟨1, 1.44, 1.44⟩ := by
  refine ⟨by with_unfolding_all rfl, ?_, ?_, ?_, ?_⟩
  · with_unfolding_all rfl
  · with_unfolding_all rfl
  · with_unfolding_all rfl
  · with_unfolding_all rfl

/-- C4 (corrected).  Claim: with the tick timestamp unchanged across two
consecutive synthetic cycles, a cached price is returned with identical
volume in both cycles.  What holds: this is true whenever the price
occurs exactly once among the first cycle's levels (the normal case -
rounded bid grid disjoint from rounded ask grid); when the two grids
share a price (e.g. `bid = ask`), the first cycle can touch that cache
entry twice and its ask-side reading differs from the second cycle's
(see the counterexample).  The second cycle itself never perturbs any
cached volume. -/
theorem C4_stale_idempotent
    (st : SymState) (t1 t2 : Tick) (info : SymbolInfo) (name : String)
    (r1 r2 : RS) (s1 s2 : Snapshot) (l1 l2 : Level) (p v0 : ℚ)
    (hc0 : clookup (st.volume_cache.getD []) p = some v0)
    (h1 : (get_dom_data st (some t1) (some info) name [] r1).result =
      DomResult.snap s1)
    (h2 : (get_dom_data (get_dom_data st (some t1) (some info) name [] r1).state
      (some t2) (some info) name [] r2).result = DomResult.snap s2)
    (ht : t2.time_msc = t1.time_msc)
    (hl1 : l1 ∈ s1.asks ++ s1.bids) (hp1 : l1.price = p)
    (huniq : (((s1.asks ++ s1.bids).map Level.price).countP
      (fun x => decide (x = p))) = 1)
    (hl2 : l2 ∈ s2.asks ++ s2.bids) (hp2 : l2.price = p) :
    l2.volume = l1.volume := by
  subst hp1
  rw [get_dom_data_nil_book st t1 info name r1] at h1 h2
  rw [get_dom_data_nil_book (synth_cycle st t1 info name r1).state t2 info name r2] at h2
  have hs1 := snap_eq_theSnap h1
  have hs2 := snap_eq_theSnap h2
  subst hs1
  subst hs2
  have hcache1 := synth_unique_cache st t1 info name r1 hl1 huniq
  have hstale2 : t2.time_msc =
      (synth_cycle st t1 info name r1).state.last_tick_time.getD 0 := by
    rw [synth_last_tick st t1 info name r1, Option.getD_some]
    exact ht
  have hc2 : clookup ((synth_cycle st t1 info name r1).state.volume_cache.getD [])
      l2.price = some l1.volume := by
    rw [hp2]
    exact hcache1
  exact synth_stale_vol (synth_cycle st t1 info name r1).state t2 info name r2
    hstale2 hc2 hl2

set_option maxRecDepth 8000 in
/-- C4 witness: a deterministic stale two-cycle scenario at the cached
price 1.006, which occurs exactly once per cycle. -/
theorem C4_witness :
    (⟨1.006, 2, 2.01⟩ : Level).volume = (⟨1.006, 2, 2.01⟩ : Level).volume :=
  C4_stale_idempotent crossStStale ⟨1, 1, 7⟩ ⟨1, 1, 7⟩ eurInfo "EURUSD" rngZero rngZero
    (theSnap crossOutS1.result) (theSnap crossOutS2.result)
    ⟨1.006, 2, 2.01⟩ ⟨1.006, 2, 2.01⟩ 1.006 2
    (by with_unfolding_all rfl)
    rfl
    rfl
    rfl
    (by with_unfolding_all decide)
    rfl
    (by with_unfolding_all decide)
    (by with_unfolding_all decide)
    rfl

lemma synth_stables (st : SymState) (tick : Tick) (info : SymbolInfo)
    (name : String) (r : RS) :
    ∃ cb ca : SLevel,
      (synth_cycle st tick info name r).state.stable_support =
        some (sticky_update st.stable_support cb) ∧
      (synth_cycle st tick info name r).state.stable_resistance =
        some (sticky_update st.stable_resistance ca) := by
  unfold synth_cycle
  dsimp only
  unfold order_flow
  dsimp only
  exact ⟨_, _, rfl, rfl⟩

lemma real_stables (st : SymState) (tick : Tick) (info : SymbolInfo)
    (name : String) (book : List BookItem) (r : RS) :
    ∃ cb ca : SLevel,
      (real_cycle st tick info name book r).state.stable_support =
        some (sticky_update st.stable_support cb) ∧
      (real_cycle st tick info name book r).state.stable_resistance =
        some (sticky_update st.stable_resistance ca) := by
  unfold real_cycle
  dsimp only
  unfold order_flow
  dsimp only
  exact ⟨_, _, rfl, rfl⟩

/-- C5 (confirmed).  Claim: a stored stable support (resp. resistance)
level is replaced only when the cycle's candidate volume strictly
exceeds 1.2 times the stored volume, and a sequence of candidates each
within 20% of the stored volume never changes the stored level.  First
two conjuncts: over any `get_dom_data` cycle, a changed stored level
implies a more-than-20% volume improvement.  Third conjunct: folding
`sticky_update` over any candidate sequence bounded by 1.2 times the
stored volume leaves the stored level unchanged. -/
theorem C5_sticky_levels :
    (∀ (st : SymState) (tick? : Option Tick) (info? : Option SymbolInfo)
      (name : String) (book : List BookItem) (r : RS) (s s' : SLevel),
      st.stable_support = some s →
      (get_dom_data st tick? info? name book r).state.stable_support = some s' →
      s' ≠ s → s'.volume > s.volume * 1.2) ∧
    (∀ (st : SymState) (tick? : Option Tick) (info? : Option SymbolInfo)
      (name : String) (book : List BookItem) (r : RS) (s s' : SLevel),
      st.stable_resistance = some s →
      (get_dom_data st tick? info? name book r).state.stable_resistance = some s' →
      s' ≠ s → s'.volume > s.volume * 1.2) ∧
    (∀ (s : SLevel) (cands : List SLevel),
      (∀ c ∈ cands, c.volume ≤ s.volume * 1.2) →
      cands.foldl (fun cur c => sticky_update (some cur) c) s = s) := by
  have hstep : ∀ (stored : Option SLevel) (cand : SLevel) (s s' : SLevel),
      stored = some s → some (sticky_update stored cand) = some s' →
      s' ≠ s → s'.volume > s.volume * 1.2 := by
    intro stored cand s s' hst h hne
    rw [hst] at h
    have hs' : sticky_update (some s) cand = s' := Option.some.injEq _ _ ▸ h
    obtain ⟨heq, hgt⟩ := sticky_update_ne (s := s) (c := cand) (by rw [hs']; exact hne)
    rw [← hs', heq]
    exact hgt
  refine ⟨?_, ?_, ?_⟩
  · intro st tick? info? name book r s s' hst h hne
    cases tick? with
    | none =>
      simp only [get_dom_data] at h
      rw [hst] at h
      exact absurd (Option.some_injective _ h).symm hne
    | some tick =>
      cases info? with
      | none =>
        simp only [get_dom_data] at h
        rw [hst] at h
        exact absurd (Option.some_injective _ h).symm hne
      | some info =>
        cases book with
        | nil =>
          rw [get_dom_data_nil_book] at h
          obtain ⟨cb, ca, hb, _⟩ := synth_stables st tick info name r
          rw [hb] at h
          exact hstep st.stable_support cb s s' hst h hne
        | cons bi rest =>
          have hbook : (bi :: rest : List BookItem) ≠ [] := by simp
          simp only [get_dom_data, if_pos hbook] at h
          obtain ⟨cb, ca, hb, _⟩ := real_stables st tick info name (bi :: rest) r
          rw [hb] at h
          exact hstep st.stable_support cb s s' hst h hne
  · intro st tick? info? name book r s s' hst h hne
    cases tick? with
    | none =>
      simp only [get_dom_data] at h
      rw [hst] at h
      exact absurd (Option.some_injective _ h).symm hne
    | some tick =>
      cases info? with
      | none =>
        simp only [get_dom_data] at h
        rw [hst] at h
        exact absurd (Option.some_injective _ h).symm hne
      | some info =>
        cases book with
        | nil =>
          rw [get_dom_data_nil_book] at h
          obtain ⟨cb, ca, _, ha⟩ := synth_stables st tick info name r
          rw [ha] at h
          exact hstep st.stable_resistance ca s s' hst h hne
        | cons bi rest =>
          have hbook : (bi :: rest : List BookItem) ≠ [] := by simp
          simp only [get_dom_data, if_pos hbook] at h
          obtain ⟨cb, ca, _, ha⟩ := real_stables st tick info name (bi :: rest) r
          rw [ha] at h
          exact hstep st.stable_resistance ca s s' hst h hne
  · intro s cands hb
    induction cands with
    | nil => rfl
    | cons c t ih =>
      have hc : sticky_update (some s) c = s := by
        have := hb c (List.mem_cons_self c t)
        simp [sticky_update, not_lt.mpr this]
      simp only [List.foldl_cons, hc]
      exact ih (fun x hx => hb x (List.mem_cons_of_mem c hx))

set_option maxRecDepth 8000 in
/-- C5 witness: stored stable levels of volume 1 and 1.5 are displaced by
the cycle's strongest bid/ask (volume 2), and a candidate within 20%
never displaces the stored level. -/
theorem C5_witness :
    ((⟨1, 2⟩ : SLevel).volume > (⟨3, 1⟩ : SLevel).volume * 1.2) ∧
    ((⟨1, 2⟩ : SLevel).volume > (⟨4, 1.5⟩ : SLevel).volume * 1.2) ∧
    ([(⟨2, 0.6⟩ : SLevel)].foldl (fun cur c => sticky_update (some cur) c)
      ⟨1, 0.5⟩ = ⟨1, 0.5⟩) :=
  ⟨C5_sticky_levels.1 stickySt (some ⟨1, 1, 7⟩) (some eurInfo) "EURUSD" [] rngZero
      ⟨3, 1⟩ ⟨1, 2⟩ rfl (by with_unfolding_all rfl) (by decide),
   C5_sticky_levels.2.1 stickySt (some ⟨1, 1, 7⟩) (some eurInfo) "EURUSD" [] rngZero
      ⟨4, 1.5⟩ ⟨1, 2⟩ rfl (by with_unfolding_all rfl) (by decide),
   C5_sticky_levels.2.2 ⟨1, 0.5⟩ [⟨2, 0.6⟩] (by with_unfolding_all decide)⟩

lemma synth_blocks (st : SymState) (tick : Tick) (info : SymbolInfo)
    (name : String) (r : RS) :
    (synth_cycle st tick info name r).state.order_blocks =
      some (manage_blocks (decide (tick.time_msc ≠ st.last_tick_time.getD 0))
        ((tick.bid + tick.ask) / 2)
        (level_step name ((tick.bid + tick.ask) / 2) info.point) info.digits
        (st.order_blocks.getD []) (runiform (-0.1) 0.1 r).2).1 := by
  unfold synth_cycle
  dsimp only

lemma real_blocks (st : SymState) (tick : Tick) (info : SymbolInfo)
    (name : String) (book : List BookItem) (r : RS) :
    (real_cycle st tick info name book r).state.order_blocks = st.order_blocks := by
  unfold real_cycle
  dsimp only

/-- One `get_dom_data` cycle preserves the order-block bound. -/
lemma cycle_blocks_le (st : SymState) (inp : CycleIn)
    (h : (st.order_blocks.getD []).length ≤ ORDER_BLOCK_MAX_COUNT) :
    ((get_dom_data st inp.tick? inp.info? inp.display_name inp.real_book
      inp.r).state.order_blocks.getD []).length ≤ ORDER_BLOCK_MAX_COUNT := by
  obtain ⟨tick?, info?, name, book, r⟩ := inp
  cases tick? with
  | none => simpa [get_dom_data]
  | some tick =>
    cases info? with
    | none => simpa [get_dom_data]
    | some info =>
      cases book with
      | cons bi rest =>
        have hbook : (bi :: rest : List BookItem) ≠ [] := by simp
        simp only [get_dom_data, if_pos hbook]
        rw [real_blocks]
        exact h
      | nil =>
        rw [show get_dom_data st (some tick) (some info) name [] r =
          synth_cycle st tick info name r from get_dom_data_nil_book st tick info name r]
        rw [synth_blocks, Option.getD_some]
        calc (manage_blocks _ _ _ _ _ _).1.length
            ≤ max (st.order_blocks.getD []).length ORDER_BLOCK_MAX_COUNT :=
              manage_blocks_len _ _ _ _ _ _
          _ ≤ ORDER_BLOCK_MAX_COUNT := by omega

lemma run_cycles_blocks_le (ins : List CycleIn) :
    ∀ st : SymState, (st.order_blocks.getD []).length ≤ ORDER_BLOCK_MAX_COUNT →
      ((run_cycles st ins).order_blocks.getD []).length ≤ ORDER_BLOCK_MAX_COUNT := by
  induction ins with
  | nil => intro st h; simpa [run_cycles]
  | cons inp rest ih =>
    intro st h
    have hstep := cycle_blocks_le st inp h
    simpa [run_cycles, List.foldl_cons] using ih _ hstep

/-- C6 (confirmed).  Claim: after any sequence of cycles - any
interleaving of spawn and despawn attempts, including cycles where both
fire - the per-symbol order-block set never holds more than
`ORDER_BLOCK_MAX_COUNT = 5` entries.  A spawn only adds a block when the
count is strictly below the maximum, a despawn only removes, and every
other path leaves the set unchanged, so the bound is invariant from the
empty initial state. -/
theorem C6_block_bound (ins : List CycleIn) :
    ((run_cycles initState ins).order_blocks.getD []).length ≤
      ORDER_BLOCK_MAX_COUNT :=
  run_cycles_blocks_le ins initState (by simp [initState])

/-- Every level of a synthetic snapshot has its price cached after the
cycle (the eviction step only deletes prices outside the snapshot). -/
lemma synth_level_cached (st : SymState) (tick : Tick) (info : SymbolInfo)
    (name : String) (r : RS) {l : Level}
    (hl : l ∈ (theSnap (synth_cycle st tick info name r).result).asks ++
      (theSnap (synth_cycle st tick info name r).result).bids) :
    (clookup ((synth_cycle st tick info name r).state.volume_cache.getD [])
      l.price).isSome = true := by
  unfold synth_cycle at hl ⊢
  dsimp only at hl ⊢
  simp only [theSnap] at hl
  unfold build_snapshot at hl
  dsimp only at hl
  rw [Option.getD_some]
  rcases List.mem_append.mp hl with hm | hm
  · rw [evict_lookup_of_mem _ _
      (List.mem_append_left _ (List.mem_map_of_mem Level.price hm))]
    exact gen_isSome_mono _ _ _ _ _ _ _ _ (gen_mem_cache _ _ _ _ _ _ _ _ hm)
  · rw [evict_lookup_of_mem _ _
      (List.mem_append_right _ (List.mem_map_of_mem Level.price hm))]
    exact gen_mem_cache _ _ _ _ _ _ _ _ hm

set_option maxRecDepth 8000 in
/-- C7 counterexample: a cycle whose draws pass the outer 5% gate and
the despawn roll removes the block at price 1.006 from the order-block
set, yet the price's volume-cache entry survives the cycle (volume 2
still cached), contradicting "that price's entry is deleted from the
volume cache". -/
theorem C7_counterexample :
    despawnOut.state.order_blocks = some [] ∧
      clookup (despawnOut.state.volume_cache.getD []) 1.006 = some 2 ∧
      despawnOut.result.isSnap = true := by
  refine ⟨?_, ?_, ?_⟩ <;> with_unfolding_all rfl

/-- C7 (corrected).  Claim: a despawn is attempted every synthetic cycle
independently of the tick timestamp, and a fired despawn also deletes
the block's volume-cache entry.  What holds: spawn and despawn attempts
are both nested inside `should_update_volume` (timestamp advanced) and
an outer 5% gate, so on a stale tick the order-block set is unchanged
for every random stream; and a despawn only removes the block from the
set - any price appearing in the cycle's snapshot, including a
just-despawned block price, remains in the volume cache. -/
theorem C7_despawn_gated (st : SymState) (tick : Tick) (info : SymbolInfo)
    (name : String) (r : RS)
    (h : tick.time_msc = st.last_tick_time.getD 0) :
    (synth_cycle st tick info name r).state.order_blocks =
      some (st.order_blocks.getD []) ∧
    (∀ l ∈ (theSnap (synth_cycle st tick info name r).result).asks ++
        (theSnap (synth_cycle st tick info name r).result).bids,
      (clookup ((synth_cycle st tick info name r).state.volume_cache.getD [])
        l.price).isSome = true) := by
  constructor
  · rw [synth_blocks]
    have hsu : decide (tick.time_msc ≠ st.last_tick_time.getD 0) = false := by
      simp [h]
    rw [hsu, manage_blocks_stale]
  · intro l hl
    exact synth_level_cached st tick info name r hl

/-- C7 witness: a stale cycle with one active block; the set survives
unchanged. -/
theorem C7_witness :
    staleBlockOut.state.order_blocks = some (staleBlockSt.order_blocks.getD []) ∧
    (∀ l ∈ (theSnap staleBlockOut.result).asks ++ (theSnap staleBlockOut.result).bids,
      (clookup (staleBlockOut.state.volume_cache.getD []) l.price).isSome = true) :=
  C7_despawn_gated staleBlockSt ⟨1, 1, 7⟩ eurInfo "EURUSD" rngHalf rfl

/-- C8 (confirmed).  Claim: a synthesized snapshot whose strongest level
is a bid of 6 lots with a buy/sell pressure imbalance of +25 points
yields signal type BUY, trend STRONG_UP, at least 4 of the 5 checklist
items passed, and `ready_to_trade = true`.  `of` is the order-flow
analysis of the synthesized level lists (`is_real = false`), and the
signal is computed from it exactly as `get_dom_data` wires
`_calculate_signal`. -/
theorem C8_buy_scenario (stb str : Option SLevel) (asks bids : List Level)
    (of : OFOut) (hof : of = order_flow stb str asks bids false)
    (hvol : of.strongest.2.1 = 6) (hside : of.strongest.2.2 = Side.BID)
    (h25 : of.buy_pressure - of.sell_pressure = 25) :
    (calculate_signal of.buy_pressure of.sell_pressure of.direction of.confidence
      of.total_bid_volume of.total_ask_volume of.strongest).type = "BUY" ∧
    (calculate_signal of.buy_pressure of.sell_pressure of.direction of.confidence
      of.total_bid_volume of.total_ask_volume of.strongest).trend = "STRONG_UP" ∧
    4 ≤ (calculate_signal of.buy_pressure of.sell_pressure of.direction of.confidence
      of.total_bid_volume of.total_ask_volume of.strongest).passed_count ∧
    (calculate_signal of.buy_pressure of.sell_pressure of.direction of.confidence
      of.total_bid_volume of.total_ask_volume of.strongest).ready_to_trade = true := by
  have hconf : of.confidence =
      (direction_confidence false (of.buy_pressure - of.sell_pressure)).2 := by
    subst hof
    unfold order_flow
    dsimp only
  have hconf75 : of.confidence = 75 := by
    rw [hconf, h25]
    norm_num [direction_confidence]
  unfold calculate_signal
  dsimp only
  rw [hvol, hside, h25, hconf75]
  norm_num
  refine ⟨?_, by decide⟩
  have hb : ∀ b : Bool, 4 ≤ 3 + b.toNat + 1 := by decide
  exact hb _

/-- Witness for C8: the two-level book with bids `[(1.0, 6), (0.9, 4)]`
and asks `[(1.2, 3), (1.3, 3)]` has total volumes 10 and 6, hence
pressures 62.5 / 37.5 (imbalance +25) and strongest level `(1.0, 6, BID)`;
the resulting signal is a ready-to-trade BUY / STRONG_UP. -/
theorem C8_witness :
    (order_flow none none c8asks c8bids false).strongest.2.1 = 6 ∧
    (order_flow none none c8asks c8bids false).strongest.2.2 = Side.BID ∧
    (order_flow none none c8asks c8bids false).buy_pressure -
      (order_flow none none c8asks c8bids false).sell_pressure = 25 ∧
    (calculate_signal (order_flow none none c8asks c8bids false).buy_pressure
      (order_flow none none c8asks c8bids false).sell_pressure
      (order_flow none none c8asks c8bids false).direction
      (order_flow none none c8asks c8bids false).confidence
      (order_flow none none c8asks c8bids false).total_bid_volume
      (order_flow none none c8asks c8bids false).total_ask_volume
      (order_flow none none c8asks c8bids false).strongest).type = "BUY" ∧
    (calculate_signal (order_flow none none c8asks c8bids false).buy_pressure
      (order_flow none none c8asks c8bids false).sell_pressure
      (order_flow none none c8asks c8bids false).direction
      (order_flow none none c8asks c8bids false).confidence
      (order_flow none none c8asks c8bids false).total_bid_volume
      (order_flow none none c8asks c8bids false).total_ask_volume
      (order_flow none none c8asks c8bids false).strongest).ready_to_trade = true := by
  have h1 : (order_flow none none c8asks c8bids false).strongest.2.1 = 6 := by
    with_unfolding_all decide
  have h2 : (order_flow none none c8asks c8bids false).strongest.2.2 = Side.BID := by
    with_unfolding_all decide
  have h3 : (order_flow none none c8asks c8bids false).buy_pressure -
      (order_flow none none c8asks c8bids false).sell_pressure = 25 := by
    with_unfolding_all decide
  have hmain := C8_buy_scenario none none c8asks c8bids
    (order_flow none none c8asks c8bids false) rfl h1 h2 h3
  exact ⟨h1, h2, h3, hmain.1, hmain.2.2.2⟩

/-- An entry cached before eviction either survives it or is named among
the victims. -/
lemma evict_isSome_or_victim (c : Cache) (cur : List ℚ) {p : ℚ}
    (h : (clookup c p).isSome) :
    (clookup (evict c cur).1 p).isSome = true ∨ p ∈ (evict c cur).2 := by
  by_cases hv : p ∈ (evict c cur).2
  · exact Or.inr hv
  · left
    rw [evict_lookup_of_not_victim c cur hv]
    exact h

/-- C9 (confirmed).  Claim: at the end of every synthetic cycle, (a)
every price of the snapshot's ask or bid lists is a key of the final
volume cache, (b) at most 10 entries are evicted that cycle, (c) every
evicted price is absent from the snapshot, and (d) any price cached
before the cycle is either still cached afterwards or is one of the
evicted prices, so only the bounded eviction step removes entries. -/
theorem C9_cache_eviction (st : SymState) (tick : Tick) (info : SymbolInfo)
    (name : String) (r : RS) :
    (∀ l ∈ (theSnap (synth_cycle st tick info name r).result).asks ++
        (theSnap (synth_cycle st tick info name r).result).bids,
      (clookup ((synth_cycle st tick info name r).state.volume_cache.getD [])
        l.price).isSome = true) ∧
    (synth_cycle st tick info name r).evicted.length ≤ 10 ∧
    (∀ p ∈ (synth_cycle st tick info name r).evicted,
      p ∉ ((theSnap (synth_cycle st tick info name r).result).asks ++
        (theSnap (synth_cycle st tick info name r).result).bids).map Level.price) ∧
    (∀ p : ℚ, (clookup (st.volume_cache.getD []) p).isSome →
      (clookup ((synth_cycle st tick info name r).state.volume_cache.getD [])
        p).isSome = true ∨ p ∈ (synth_cycle st tick info name r).evicted) := by
  refine ⟨fun l hl => synth_level_cached st tick info name r hl, ?_, ?_, ?_⟩
  · unfold synth_cycle
    dsimp only
    exact evict_len _ _
  · intro p hp
    unfold synth_cycle at hp ⊢
    dsimp only at hp ⊢
    simp only [theSnap]
    unfold build_snapshot
    dsimp only
    rw [List.map_append]
    exact evict_not_cur _ _ p hp
  · intro p hp
    unfold synth_cycle
    dsimp only
    rw [Option.getD_some]
    exact evict_isSome_or_victim _ _
      (gen_isSome_mono _ _ _ _ _ _ _ _ (gen_isSome_mono _ _ _ _ _ _ _ _ hp))

set_option maxRecDepth 8000 in
/-- Witness for C9: a concrete stale cycle on the fully-cached cross
state.  The head ask level `(1, 2, 2)` stays cached, the eviction list
is within the bound, and the pre-cached price 1 survives or is evicted. -/
theorem C9_witness :
    (synth_cycle crossStStale ⟨1, 1, 7⟩ eurInfo "EURUSD" rngZero).evicted.length ≤ 10 ∧
    (clookup ((synth_cycle crossStStale ⟨1, 1, 7⟩ eurInfo
        "EURUSD" rngZero).state.volume_cache.getD [])
      (⟨1, 2, 2⟩ : Level).price).isSome = true ∧
    ((clookup ((synth_cycle crossStStale ⟨1, 1, 7⟩ eurInfo
        "EURUSD" rngZero).state.volume_cache.getD []) 1).isSome = true ∨
      (1 : ℚ) ∈ (synth_cycle crossStStale ⟨1, 1, 7⟩ eurInfo "EURUSD" rngZero).evicted) := by
  have h := C9_cache_eviction crossStStale ⟨1, 1, 7⟩ eurInfo "EURUSD" rngZero
  exact ⟨h.2.1, h.1 ⟨1, 2, 2⟩ (by with_unfolding_all decide),
    h.2.2.2 1 (by with_unfolding_all decide)⟩

/-- C10 (confirmed).  Claim: `_calculate_entry_zones` never marks both
the buy zone and the sell zone as recommended, because each flag is a
strict comparison of the two strength scores; with equal strengths (for
instance both capped at 100) neither zone is recommended. -/
theorem C10_recommended_exclusive (bid ask sp rp sv rv pv : ℚ) (d : ℕ) :
    ¬((calculate_entry_zones bid ask sp rp sv rv pv d).1.recommended = true ∧
      (calculate_entry_zones bid ask sp rp sv rv pv d).2.recommended = true) ∧
    ((calculate_entry_zones bid ask sp rp sv rv pv d).1.strength =
        (calculate_entry_zones bid ask sp rp sv rv pv d).2.strength →
      (calculate_entry_zones bid ask sp rp sv rv pv d).1.recommended = false ∧
      (calculate_entry_zones bid ask sp rp sv rv pv d).2.recommended = false) := by
  unfold calculate_entry_zones
  dsimp only
  constructor
  · rintro ⟨h1, h2⟩
    simp only [decide_eq_true_eq] at h1 h2
    exact absurd h1 (not_lt.mpr (le_of_lt h2))
  · intro he
    constructor <;> simp [he]

/-- Witness for C10: with support and resistance volumes both 10 the two
strengths saturate at the cap of 100 and neither zone is recommended. -/
theorem C10_witness :
    (calculate_entry_zones 1 1.1 0.9 1.2 10 10 0.0001 5).1.strength =
      (calculate_entry_zones 1 1.1 0.9 1.2 10 10 0.0001 5).2.strength ∧
    (calculate_entry_zones 1 1.1 0.9 1.2 10 10 0.0001 5).1.recommended = false ∧
    (calculate_entry_zones 1 1.1 0.9 1.2 10 10 0.0001 5).2.recommended = false := by
  have he : (calculate_entry_zones 1 1.1 0.9 1.2 10 10 0.0001 5).1.strength =
      (calculate_entry_zones 1 1.1 0.9 1.2 10 10 0.0001 5).2.strength := by
    with_unfolding_all decide
  exact ⟨he, (C10_recommended_exclusive 1 1.1 0.9 1.2 10 10 0.0001 5).2 he⟩
